import Mathlib

/-!
# Health-check utility: confirmation polling and the command-line workflow

A shallow embedding of `go/healthcheck/main.go`.

* `ConfirmedAsync` polls the ledger client for a transaction receipt until the
  receipt is included in a block or the deadline has passed.
* `main` runs the end-to-end check and ends the process with an exit code.

The last part embeds the handler `changeTime` of
`scripts/local-flare-chain-vm/files/time-server.go`, with the fragment of Go
regular expressions its pattern uses.

The ledger client, the wall clock and `time.Sleep` are external.  They are
modelled by an environment `Env` (what the k-th receipt query answers, what the
clock shows) and a `World` that counts the effects performed so far and records
them in a trace.
-/

namespace HealthCheck

/-! ## Data model -/

/-- The two fields of `types.Receipt` the poller reads: `BlockNumber`
(a `*big.Int`, nil until the transaction is mined) and `Status` (a `uint64`). -/
structure Receipt where
  BlockNumber : Option Int
  Status : Nat
deriving DecidableEq, Repr

/-- An effect performed by `ConfirmedAsync`, in program order. -/
inductive Event where
  | now (t : Int)
  | query (receipt : Option Receipt)
  | sleep (ms : Nat)
deriving DecidableEq, Repr

/-- The environment of one call of `ConfirmedAsync`.
`TransactionReceipt k` is the pair `(receipt, err)` answered by the k-th call of
`client.TransactionReceipt` (counting from 0); `clock i s` is the value of
`nowMs()` at its i-th call when `s` milliseconds have been slept so far.
`nowMs()` returns an `int64`: a clock stands for the code's clock on the runs
whose readings are `int64` values. -/
structure Env where
  TransactionReceipt : Nat → Option Receipt × Option String
  clock : Nat → Nat → Int

/-- Effects performed so far. -/
structure World where
  queries : Nat
  reads : Nat
  slept : Nat
  trace : List Event
deriving DecidableEq, Repr

/-- The world at program start. -/
def World.init : World := ⟨0, 0, 0, []⟩

/-- Go `int64` arithmetic wraps around: the representative of `x` in
`[-2^63, 2^63)`. -/
def wrapInt64 (x : Int) : Int := (x + 2 ^ 63) % 2 ^ 64 - 2 ^ 63

/-- `nowMs()`: one reading of the clock, in milliseconds. -/
def nowMs (env : Env) (w : World) : Int × World :=
  (env.clock w.reads w.slept,
    { w with reads := w.reads + 1, trace := w.trace ++ [Event.now (env.clock w.reads w.slept)] })

/-- `client.TransactionReceipt(context.Background(), hash)`: one status query. -/
def TransactionReceipt (env : Env) (w : World) : (Option Receipt × Option String) × World :=
  (env.TransactionReceipt w.queries,
    { w with queries := w.queries + 1,
             trace := w.trace ++ [Event.query (env.TransactionReceipt w.queries).1] })

/-- `time.Sleep(ms * time.Millisecond)`. -/
def Sleep (ms : Nat) (w : World) : World :=
  { w with slept := w.slept + ms, trace := w.trace ++ [Event.sleep ms] }

/-- The loop guard `receipt == nil || receipt.BlockNumber == nil`. -/
def notIncluded (receipt : Option Receipt) : Bool :=
  match receipt with
  | none => true
  | some rc => rc.BlockNumber.isNone

/-- The last disjunct of the final test, `receipt.Status == 0`, evaluated only
when the receipt is not nil. -/
def statusZero (receipt : Option Receipt) : Bool :=
  match receipt with
  | none => false
  | some rc => rc.Status == 0

/-- The `for` loop of `ConfirmedAsync` (lines 26-29).  The guard is
`notIncluded receipt && nowMs() < startMs+timeoutMs`; `&&` does not read the
clock when its left operand is false.  The body queries first and sleeps 100 ms
afterwards.  `deadline` is the value of `startMs+timeoutMs`, the same at every
evaluation of the guard.  One unit of fuel is spent per iteration; `none` means
the fuel ran out. -/
def pollLoop (env : Env) (deadline : Int) :
    Nat → Option Receipt → World → Option (Option Receipt × World)
  | fuel, receipt, w =>
    if notIncluded receipt then
      if (nowMs env w).1 < deadline then
        match fuel with
        | 0 => none
        | n + 1 =>
          pollLoop env deadline n (TransactionReceipt env (nowMs env w).2).1.1
            (Sleep 100 (TransactionReceipt env (nowMs env w).2).2)
      else some (receipt, (nowMs env w).2)
    else some (receipt, w)

/-- `ConfirmedAsync(client, hash, timeoutMs)`.  The result is Go's `error`:
`Except.ok ()` is `nil`, `Except.error msg` is `errors.New(msg)`.  The sum
`startMs+timeoutMs` is an `int64` sum. -/
def ConfirmedAsync (env : Env) (timeoutMs : Int) (fuel : Nat) (w : World) :
    Option (Except String Unit × World) :=
  match pollLoop env (wrapInt64 ((nowMs env w).1 + timeoutMs)) fuel
      (TransactionReceipt env (nowMs env w).2).1.1 (TransactionReceipt env (nowMs env w).2).2 with
  | none => none
  | some (receipt, w3) =>
    if notIncluded receipt || statusZero receipt then
      some (Except.error "Timeout expired", w3)
    else
      some (Except.ok (), Sleep 250 w3)

/-- The simulated clock: queries take no time and every sleep advances the
clock by exactly its duration.  Its readings are `int64` values as long as
`start + slept` stays in the `int64` range; the general facts stated with it
bound the run so that every reading made does. -/
def simClock (start : Int) : Nat → Nat → Int := fun _ s => start + s

/-- A clock that is set back by a day after its first reading and advances with
sleeping from there. -/
def setBackClock : Nat → Nat → Int :=
  fun i s => if i = 0 then 1700000000000 else 1699913600000 + s

/-- A status source that answers the same pair to every query. -/
def constSource (r : Option Receipt × Option String) : Nat → Option Receipt × Option String :=
  fun _ => r

/-- The effects a run of the loop adds to the trace, as a relation between the
receipt held at loop entry, the added events and the receipt held at loop exit:
either the receipt is already included (nothing is added), or the clock has
reached the deadline (one clock reading is added), or one iteration runs
(clock reading, query, 100 ms sleep) and the loop goes on with the new
receipt. -/
inductive LoopExt (deadline : Int) : Option Receipt → List Event → Option Receipt → Prop where
  | hit (rc : Option Receipt) : notIncluded rc = false → LoopExt deadline rc [] rc
  | late (rc : Option Receipt) (t : Int) : notIncluded rc = true → ¬ t < deadline →
      LoopExt deadline rc [Event.now t] rc
  | step (rc : Option Receipt) (t : Int) (r : Option Receipt) (ext : List Event)
      (rc' : Option Receipt) : notIncluded rc = true → t < deadline →
      LoopExt deadline r ext rc' →
      LoopExt deadline rc (Event.now t :: Event.query r :: Event.sleep 100 :: ext) rc'

/-- A clock that never goes backwards: a later reading, after at least as much
sleeping, is not smaller. -/
def MonotoneClock (clock : Nat → Nat → Int) : Prop :=
  ∀ i j s t, i ≤ j → s ≤ t → clock i s ≤ clock j t

/-- A clock on which sleeping takes at least the time slept: after `s`
milliseconds of sleep every reading is at least the first reading plus `s`. -/
def AdvancingClock (clock : Nat → Nat → Int) : Prop :=
  ∀ i s, clock 0 0 + s ≤ clock i s

/-- The value is an `int64`. -/
def IsInt64 (x : Int) : Prop := -(2 ^ 63) ≤ x ∧ x < 2 ^ 63

/-- A status source that errors (nil receipt, non-nil error) on its first `n`
queries and answers `rc` without error from then on. -/
def errorsThen (n : Nat) (rc : Receipt) : Nat → Option Receipt × Option String :=
  fun k => if k < n then (none, some "not found") else (some rc, none)

/-! ## The command-line workflow -/

/-- The command-line flags as delivered by `flag.Parse()`. -/
structure Flags where
  url : String
  pk : String
  waitms : Int
  checker : String

/-- The steps of the workflow: the call sites of collaborators in `main`, in
program order, and the final comparison of the two counters. -/
inductive Step where
  | Dial
  | HexToECDSA
  | DeployHealthCheck
  | ConfirmDeploy
  | NewHealthCheck
  | CounterTouch
  | CounterBegin
  | Tick
  | ConfirmTick
  | CounterEnd
  | Compare
deriving DecidableEq, Repr

/-- What each collaborator call of `main` answers, should the call be made.
Errors carry their `%v` rendering; addresses are carried as their rendering.
`ConfirmDeploy` and `ConfirmTick` are the values delivered by `Await()` on the
two futures.  The package `healthcheck/async` is not among the sources; `Await`
hands over the result of the operation given to `Exec`, here the `error`
returned by `ConfirmedAsync`, and is taken as an answer like the others. -/
structure Outcomes where
  Dial : Except String Unit
  HexToECDSA : Except String Unit
  DeployHealthCheck : Except String String
  ConfirmDeploy : Except String Unit
  HexToAddress : String
  NewHealthCheck : Except String Unit
  CounterTouch : Except String Int
  CounterBegin : Except String Int
  Tick : Except String Unit
  ConfirmTick : Except String Unit
  CounterEnd : Except String Int

/-- How a run of `main` ends: the argument of `os.Exit`, what was written to the
two streams and the collaborator calls issued, in order. -/
structure Exit where
  code : Nat
  stdout : List String
  stderr : List String
  calls : List Step
deriving DecidableEq, Repr

/-- Lines 122-162 of `main`: baseline read, tick, confirmation, post read and
comparison.  `addr` is the rendering of `healthCheckAddress`; `out` and `calls`
are what the first part of `main` has written to stdout and called. -/
def mainCheck (o : Outcomes) (addr : String) (out : List String) (calls : List Step) : Exit :=
  match o.CounterBegin with
  | Except.error err =>
    ⟨1, out, ["Error getting HealthCheck beginning tick counter for contract at address "
      ++ addr ++ ": " ++ err ++ "\n"], calls ++ [Step.CounterBegin]⟩
  | Except.ok tickCountBegin =>
  match o.Tick with
  | Except.error err =>
    ⟨1, out, ["Error creating HealthCheck tick transaction at contract address "
      ++ addr ++ ": " ++ err ++ "\n"], calls ++ [Step.CounterBegin, Step.Tick]⟩
  | Except.ok _ =>
  match o.ConfirmTick with
  | Except.error _ =>
    ⟨1, out, ["Time expired awaiting HealthCheck tick at contract address: " ++ addr ++ "\n"],
      calls ++ [Step.CounterBegin, Step.Tick, Step.ConfirmTick]⟩
  | Except.ok _ =>
  match o.CounterEnd with
  | Except.error err =>
    ⟨1, out, ["Error getting HealthCheck ending tick counter for contract at address "
      ++ addr ++ ": " ++ err ++ "\n"],
      calls ++ [Step.CounterBegin, Step.Tick, Step.ConfirmTick, Step.CounterEnd]⟩
  | Except.ok tickCountEnd =>
    if tickCountEnd > tickCountBegin then
      ⟨0, out, [], calls ++ [Step.CounterBegin, Step.Tick, Step.ConfirmTick, Step.CounterEnd]⟩
    else
      ⟨1, out, ["HealthCheck tick counter did not advance for contract at address: "
        ++ addr ++ "\n"],
        calls ++ [Step.CounterBegin, Step.Tick, Step.ConfirmTick, Step.CounterEnd]⟩

/-- The function `main`, from the parsed flags and the answers of the
collaborators to the way the process ends.  `tickCountEnd.Cmp(tickCountBegin) > 0`
on `*big.Int` is the order of the integers. -/
def main (f : Flags) (o : Outcomes) : Exit :=
  match o.Dial with
  | Except.error err =>
    ⟨2, [], ["Unable to connect to network " ++ f.url ++ ": " ++ err ++ "\n"], [Step.Dial]⟩
  | Except.ok _ =>
  match o.HexToECDSA with
  | Except.error err =>
    ⟨2, [], ["Unable to get public key from private key " ++ f.pk ++ ": " ++ err ++ "\n"],
      [Step.Dial, Step.HexToECDSA]⟩
  | Except.ok _ =>
  if f.checker = "" then
    match o.DeployHealthCheck with
    | Except.error err =>
      ⟨2, [], ["Unable to deploy HealthCheck contract: " ++ err ++ "\n"],
        [Step.Dial, Step.HexToECDSA, Step.DeployHealthCheck]⟩
    | Except.ok healthCheckAddress =>
    match o.ConfirmDeploy with
    | Except.error _ =>
      ⟨2, [healthCheckAddress ++ "\n"],
        ["Timeout waiting to deploy HealthCheck contract: <nil>\n"],
        [Step.Dial, Step.HexToECDSA, Step.DeployHealthCheck, Step.ConfirmDeploy]⟩
    | Except.ok _ =>
      mainCheck o healthCheckAddress [healthCheckAddress ++ "\n"]
        [Step.Dial, Step.HexToECDSA, Step.DeployHealthCheck, Step.ConfirmDeploy]
  else
    match o.NewHealthCheck with
    | Except.error err =>
      ⟨2, [], ["Unable to bind to HealthCheck contract at address " ++ f.checker ++ ": "
        ++ err ++ "\n"], [Step.Dial, Step.HexToECDSA, Step.NewHealthCheck]⟩
    | Except.ok _ =>
    match o.CounterTouch with
    | Except.error err =>
      ⟨2, [], ["Error touching HealthCheck at address " ++ o.HexToAddress ++ ": "
        ++ err ++ "\n"], [Step.Dial, Step.HexToECDSA, Step.NewHealthCheck, Step.CounterTouch]⟩
    | Except.ok _ =>
      mainCheck o o.HexToAddress []
        [Step.Dial, Step.HexToECDSA, Step.NewHealthCheck, Step.CounterTouch]

/-! ### The classification of failures, in the words of the specification -/

/-- The steps of a run in order: deploy and confirm when no address is
configured, bind and validate otherwise; then the check proper. -/
def stepsOf (f : Flags) : List Step :=
  [Step.Dial, Step.HexToECDSA] ++
  (if f.checker = "" then [Step.DeployHealthCheck, Step.ConfirmDeploy]
   else [Step.NewHealthCheck, Step.CounterTouch]) ++
  [Step.CounterBegin, Step.Tick, Step.ConfirmTick, Step.CounterEnd, Step.Compare]

/-- An outcome that is an error. -/
def isError {α : Type} (r : Except String α) : Bool :=
  match r with
  | Except.error _ => true
  | Except.ok _ => false

/-- Whether a step fails under the given answers.  The comparison fails when
both counters were read and the second is not strictly greater. -/
def fails (o : Outcomes) : Step → Bool
  | Step.Dial => isError o.Dial
  | Step.HexToECDSA => isError o.HexToECDSA
  | Step.DeployHealthCheck => isError o.DeployHealthCheck
  | Step.ConfirmDeploy => isError o.ConfirmDeploy
  | Step.NewHealthCheck => isError o.NewHealthCheck
  | Step.CounterTouch => isError o.CounterTouch
  | Step.CounterBegin => isError o.CounterBegin
  | Step.Tick => isError o.Tick
  | Step.ConfirmTick => isError o.ConfirmTick
  | Step.CounterEnd => isError o.CounterEnd
  | Step.Compare =>
    match o.CounterBegin, o.CounterEnd with
    | Except.ok b, Except.ok e => decide (e ≤ b)
    | _, _ => false

/-- The first failing step of a run, if any. -/
def firstFailing (f : Flags) (o : Outcomes) : Option Step :=
  (stepsOf f).find? (fails o)

/-- The setup steps: connecting, parsing the private key, deploying, confirming
the deployment, binding to an existing address, the validating read. -/
def isSetup : Step → Bool
  | Step.Dial | Step.HexToECDSA | Step.DeployHealthCheck | Step.ConfirmDeploy
  | Step.NewHealthCheck | Step.CounterTouch => true
  | _ => false

/-- The steps of the check proper: the baseline read, the tick submission, the
tick confirmation, the post read and the counter comparison. -/
def isCheck : Step → Bool
  | Step.CounterBegin | Step.Tick | Step.ConfirmTick | Step.CounterEnd | Step.Compare => true
  | _ => false

/-- The collaborator calls a run that stops at its first failing step issues:
the steps up to and including that step, the comparison (which calls nobody)
left out. -/
def callsUpToFirstFailing (f : Flags) (o : Outcomes) : List Step :=
  (((stepsOf f).takeWhile (fun s => !fails o s)) ++
    ((stepsOf f).dropWhile (fun s => !fails o s)).take 1).filter (fun s => s != Step.Compare)

/-- Answers under which every collaborator call succeeds and the counter reads
`b` before the tick and `e` after it. -/
def allOk (b e : Int) : Outcomes :=
  ⟨Except.ok (), Except.ok (), Except.ok "0xabc", Except.ok (), "0xdef", Except.ok (),
    Except.ok b, Except.ok b, Except.ok (), Except.ok (), Except.ok e⟩

/-- A receipt included in a block with `Status == 0` (reverted). -/
def reverted : Receipt := ⟨some 7, 0⟩

/-- A receipt included in a block with `Status == 1` (success). -/
def succeeded : Receipt := ⟨some 7, 1⟩

end HealthCheck

/-! ## The time server -/

namespace TimeServer

/-- The fragment of Go regular expressions used by the handler: `^` and `$`
(without the `m` flag: beginning and end of the text), a literal character, a
character class that is one range, counted repetition `r{n}` and
concatenation. -/
inductive Regex where
  | beginText
  | endText
  | lit (c : Char)
  | range (lo hi : Char)
  | rep (n : Nat) (r : Regex)
  | seq (a b : Regex)
deriving Repr

/-- A position of the matcher in the text: the number of characters before it
and the characters from it on. -/
structure Cursor where
  pos : Nat
  rest : List Char
deriving DecidableEq, Repr

/-- Counted repetition: a matching step applied `n` times in a row. -/
def repeatStep (step : Cursor → List Cursor) : Nat → Cursor → List Cursor
  | 0, c => [c]
  | n + 1, c => (step c).flatMap (repeatStep step n)

/-- All the ways the expression matches from a cursor, given by the cursors
where the match ends. -/
def Regex.run : Regex → Cursor → List Cursor
  | Regex.beginText, c => if c.pos = 0 then [c] else []
  | Regex.endText, c => if c.rest.isEmpty then [c] else []
  | Regex.lit a, c =>
    match c.rest with
    | x :: xs => if x = a then [⟨c.pos + 1, xs⟩] else []
    | [] => []
  | Regex.range lo hi, c =>
    match c.rest with
    | x :: xs => if lo.val ≤ x.val ∧ x.val ≤ hi.val then [⟨c.pos + 1, xs⟩] else []
    | [] => []
  | Regex.rep n r, c => repeatStep r.run n c
  | Regex.seq a b, c => (a.run c).flatMap b.run

/-- `regexp.MatchString(pattern, s)`: whether `s` contains a match of the
expression, starting at any position.  The text is the sequence of characters
of the Go string. -/
def MatchString (pattern : Regex) (s : List Char) : Bool :=
  (List.range (s.length + 1)).any (fun i => !(pattern.run ⟨i, s.drop i⟩).isEmpty)

/-- The class `[0-9]`. -/
def digit : Regex := Regex.range '0' '9'

/-- The pattern of `changeTime`,
`^[0-9]{4}-[0-9]{2}-[0-9]{2} [0-9]{2}:[0-9]{2}:[0-9]{2}$`, parsed. -/
def timePattern : Regex :=
  Regex.seq Regex.beginText
  (Regex.seq (Regex.rep 4 digit) (Regex.seq (Regex.lit '-')
  (Regex.seq (Regex.rep 2 digit) (Regex.seq (Regex.lit '-')
  (Regex.seq (Regex.rep 2 digit) (Regex.seq (Regex.lit ' ')
  (Regex.seq (Regex.rep 2 digit) (Regex.seq (Regex.lit ':')
  (Regex.seq (Regex.rep 2 digit) (Regex.seq (Regex.lit ':')
  (Regex.seq (Regex.rep 2 digit) Regex.endText)))))))))))

/-- `strings.TrimPrefix(s, pre)`: `s` without the leading `pre`, and `s`
itself when it does not start with `pre`. -/
def TrimPrefix (s pre : List Char) : List Char :=
  if pre.isPrefixOf s then s.drop pre.length else s

/-- What is external to one call of `changeTime`: `Now k` is the value of the
k-th call of `time.Now()` (as Unix nanoseconds), `TimeString` is
`Time.String()`, and `Run args` is the result of
`exec.Command("timedatectl", args...).Run()`, `none` for a nil error and the
rendering of the error otherwise. -/
structure Env where
  Now : Nat → Int
  TimeString : Int → String
  Run : List String → Option String

/-- The three `%s` arguments of the `Fprintf` that writes the response. -/
structure Reply where
  changed : String
  oldTime : String
  newTime : String
deriving DecidableEq, Repr

/-- The response body, the format
`"{\nchanged: %s,\noldTime: \"%s\",\nnewTime: \"%s\"\n}"` filled in. -/
def Reply.body (r : Reply) : String :=
  "\x7b\nchanged: " ++ r.changed ++ ",\noldTime: \"" ++ r.oldTime ++ "\",\nnewTime: \""
    ++ r.newTime ++ "\"\n\x7d"

/-- The effects of one call of `changeTime`: the lines printed to stdout, the
commands run (program name and arguments) and the response written. -/
structure Handled where
  stdout : List String
  commands : List (List String)
  reply : Reply
deriving DecidableEq, Repr

/-- The handler `changeTime(w, req)`; `path` is `req.URL.Path`. -/
def changeTime (env : Env) (path : List Char) : Handled :=
  let tm := TrimPrefix path ['/']
  let matched := MatchString timePattern tm
  let dt := env.Now 0
  if !matched then
    ⟨[String.mk tm ++ "\n", "false\n"], [],
      ⟨"false", env.TimeString dt, env.TimeString dt⟩⟩
  else
    match env.Run ["set-time", String.mk tm] with
    | some err =>
      ⟨[String.mk tm ++ "\n", "true\n", err ++ "\n"],
        [["timedatectl", "set-time", String.mk tm]],
        ⟨"false", env.TimeString dt, env.TimeString dt⟩⟩
    | none =>
      ⟨[String.mk tm ++ "\n", "true\n"], [["timedatectl", "set-time", String.mk tm]],
        ⟨"true", env.TimeString dt, env.TimeString (env.Now 1)⟩⟩

/-! ### The accepted paths, in the words of the specification -/

/-- Whether the text fits a template in which `D` stands for one decimal digit
and every other character for itself, with nothing before or after. -/
def fitsTemplate : List Char → List Char → Bool
  | [], [] => true
  | t :: ts, c :: cs => (if t = 'D' then c.isDigit else c == t) && fitsTemplate ts cs
  | _, _ => false

/-- The text is exactly of the form `DDDD-DD-DD DD:DD:DD`. -/
def isTimestampForm (tm : List Char) : Bool :=
  fitsTemplate "DDDD-DD-DD DD:DD:DD".toList tm

/-- An environment in which the clock-set command succeeds. -/
def okEnv : Env := ⟨fun k => 1617081955000000000 + k, fun t => toString t, fun _ => none⟩

/-- An environment in which the clock-set command fails. -/
def failEnv : Env :=
  ⟨fun k => 1617081955000000000 + k, fun t => toString t, fun _ => some "exit status 1"⟩

end TimeServer

namespace HealthCheck

/-! ## Facts about the polling loop -/

theorem nowMs_trace (env : Env) (w : World) :
    (nowMs env w).2.trace = w.trace ++ [Event.now (nowMs env w).1] := rfl

theorem pollLoop_included (env : Env) (d : Int) (fuel : Nat) (rc : Option Receipt) (w : World)
    (h : notIncluded rc = false) : pollLoop env d fuel rc w = some (rc, w) := by
  unfold pollLoop
  simp [h]

theorem pollLoop_late (env : Env) (d : Int) (fuel : Nat) (rc : Option Receipt) (w : World)
    (h : notIncluded rc = true) (ht : ¬ (nowMs env w).1 < d) :
    pollLoop env d fuel rc w = some (rc, (nowMs env w).2) := by
  unfold pollLoop
  simp [h, ht]

theorem pollLoop_step (env : Env) (d : Int) (n : Nat) (rc : Option Receipt) (w : World)
    (h : notIncluded rc = true) (ht : (nowMs env w).1 < d) :
    pollLoop env d (n + 1) rc w =
      pollLoop env d n (TransactionReceipt env (nowMs env w).2).1.1
        (Sleep 100 (TransactionReceipt env (nowMs env w).2).2) := by
  conv_lhs => unfold pollLoop
  simp [h, ht]

theorem pollLoop_out_of_fuel (env : Env) (d : Int) (rc : Option Receipt) (w : World)
    (h : notIncluded rc = true) (ht : (nowMs env w).1 < d) :
    pollLoop env d 0 rc w = none := by
  unfold pollLoop
  simp [h, ht]

/-- Every finished run of the loop adds to the trace a list of events of the
shape described by `LoopExt`. -/
theorem pollLoop_ext (env : Env) (d : Int) :
    ∀ (fuel : Nat) (rc : Option Receipt) (w : World) (rc' : Option Receipt) (w' : World),
      pollLoop env d fuel rc w = some (rc', w') →
      ∃ ext, w'.trace = w.trace ++ ext ∧ LoopExt d rc ext rc' := by
  intro fuel
  induction fuel with
  | zero =>
    intro rc w rc' w' h
    by_cases hin : notIncluded rc = true
    · by_cases ht : (nowMs env w).1 < d
      · rw [pollLoop_out_of_fuel env d rc w hin ht] at h
        exact absurd h (by simp)
      · rw [pollLoop_late env d 0 rc w hin ht] at h
        simp only [Option.some.injEq, Prod.mk.injEq] at h
        obtain ⟨h1, h2⟩ := h
        subst h1; subst h2
        exact ⟨[Event.now (nowMs env w).1], nowMs_trace env w, LoopExt.late rc _ hin ht⟩
    · have hin' : notIncluded rc = false := by simpa using hin
      rw [pollLoop_included env d 0 rc w hin'] at h
      simp only [Option.some.injEq, Prod.mk.injEq] at h
      obtain ⟨h1, h2⟩ := h
      subst h1; subst h2
      exact ⟨[], by simp, LoopExt.hit rc hin'⟩
  | succ n ih =>
    intro rc w rc' w' h
    by_cases hin : notIncluded rc = true
    · by_cases ht : (nowMs env w).1 < d
      · rw [pollLoop_step env d n rc w hin ht] at h
        obtain ⟨ext, hext, hshape⟩ := ih _ _ _ _ h
        refine ⟨Event.now (nowMs env w).1 ::
          Event.query (TransactionReceipt env (nowMs env w).2).1.1 :: Event.sleep 100 :: ext, ?_,
          LoopExt.step rc _ _ ext rc' hin ht hshape⟩
        rw [hext]
        simp [Sleep, TransactionReceipt, nowMs]
      · rw [pollLoop_late env d (n + 1) rc w hin ht] at h
        simp only [Option.some.injEq, Prod.mk.injEq] at h
        obtain ⟨h1, h2⟩ := h
        subst h1; subst h2
        exact ⟨[Event.now (nowMs env w).1], nowMs_trace env w, LoopExt.late rc _ hin ht⟩
    · have hin' : notIncluded rc = false := by simpa using hin
      rw [pollLoop_included env d (n + 1) rc w hin'] at h
      simp only [Option.some.injEq, Prod.mk.injEq] at h
      obtain ⟨h1, h2⟩ := h
      subst h1; subst h2
      exact ⟨[], by simp, LoopExt.hit rc hin'⟩

/-- The loop exits with the receipt it entered with when that receipt is
already included, and adds nothing to the trace. -/
theorem LoopExt.of_included {d : Int} {rc rc' : Option Receipt} {ext : List Event}
    (h : LoopExt d rc ext rc') (hin : notIncluded rc = false) : ext = [] ∧ rc' = rc := by
  cases h with
  | hit _ _ => exact ⟨rfl, rfl⟩
  | late _ t h1 _ => rw [hin] at h1; exact absurd h1 (by simp)
  | step _ t r ext0 _ h1 _ _ => rw [hin] at h1; exact absurd h1 (by simp)

/-- The loop never performs the settle sleep. -/
theorem LoopExt.no_settle {d : Int} {rc rc' : Option Receipt} {ext : List Event}
    (h : LoopExt d rc ext rc') : Event.sleep 250 ∉ ext := by
  induction h with
  | hit _ _ => simp
  | late _ t _ _ => simp
  | step _ t r ext0 _ _ _ _ ih => simp [ih]

/-- A query of the loop that answers an included receipt is the last query of
the loop: only the 100 ms sleep of its iteration follows, and the loop exits
with that receipt. -/
theorem LoopExt.after_included {d : Int} {rc rc' : Option Receipt} {ext : List Event}
    (h : LoopExt d rc ext rc') :
    ∀ (pre post : List Event) (rq : Option Receipt), ext = pre ++ Event.query rq :: post →
      notIncluded rq = false → post = [Event.sleep 100] ∧ rc' = rq ∧ pre ≠ [] := by
  induction h with
  | hit _ _ =>
    intro pre post rq he _
    simp at he
  | late _ t _ _ =>
    intro pre post rq he _
    rcases pre with _ | ⟨x, pre⟩ <;> simp at he
  | step rc0 t r ext0 rc1 _ _ hrest ih =>
    intro pre post rq he hin
    rcases pre with _ | ⟨x, _ | ⟨y, _ | ⟨z, pre⟩⟩⟩
    · simp at he
    · simp only [List.cons_append, List.nil_append, List.cons.injEq, Event.query.injEq] at he
      obtain ⟨_, hr, hp⟩ := he
      subst hr
      obtain ⟨he0, hrc⟩ := hrest.of_included hin
      subst he0
      exact ⟨hp.symm, hrc, by simp⟩
    · simp at he
    · simp only [List.cons_append, List.cons.injEq] at he
      obtain ⟨_, _, _, he'⟩ := he
      obtain ⟨h1, h2, _⟩ := ih pre post rq he' hin
      exact ⟨h1, h2, by simp⟩

/-- When the loop exits with an included receipt, that receipt is either the one
it entered with (and nothing was added) or the answer of the last query, which
is followed by its 100 ms sleep only. -/
theorem LoopExt.exit_included {d : Int} {rc rc' : Option Receipt} {ext : List Event}
    (h : LoopExt d rc ext rc') (hin : notIncluded rc' = false) :
    (ext = [] ∧ rc' = rc) ∨ ∃ pre, ext = pre ++ [Event.query rc', Event.sleep 100] ∧
      Event.sleep 250 ∉ pre := by
  induction h with
  | hit _ _ => exact Or.inl ⟨rfl, rfl⟩
  | late _ t h1 _ => rw [hin] at h1; exact absurd h1 (by simp)
  | step rc0 t r ext0 rc1 _ _ hrest ih =>
    right
    rcases ih hin with ⟨he, hr⟩ | ⟨pre, he, hp⟩
    · subst he; subst hr
      exact ⟨[Event.now t], by simp, by simp⟩
    · subst he
      exact ⟨Event.now t :: Event.query r :: Event.sleep 100 :: pre, by simp, by simp [hp]⟩

/-- The receipt held by the loop is always the answer of the last query made:
if this holds at entry it holds at exit. -/
theorem pollLoop_last_query (env : Env) (d : Int) :
    ∀ (fuel : Nat) (rc : Option Receipt) (w : World) (rc' : Option Receipt) (w' : World),
      1 ≤ w.queries → rc = (env.TransactionReceipt (w.queries - 1)).1 →
      pollLoop env d fuel rc w = some (rc', w') →
      1 ≤ w'.queries ∧ rc' = (env.TransactionReceipt (w'.queries - 1)).1 := by
  intro fuel
  induction fuel with
  | zero =>
    intro rc w rc' w' hq hrc h
    by_cases hin : notIncluded rc = true
    · by_cases ht : (nowMs env w).1 < d
      · rw [pollLoop_out_of_fuel env d rc w hin ht] at h
        exact absurd h (by simp)
      · rw [pollLoop_late env d 0 rc w hin ht] at h
        simp only [Option.some.injEq, Prod.mk.injEq] at h
        obtain ⟨h1, h2⟩ := h
        subst h1; subst h2
        exact ⟨hq, hrc⟩
    · rw [pollLoop_included env d 0 rc w (by simpa using hin)] at h
      simp only [Option.some.injEq, Prod.mk.injEq] at h
      obtain ⟨h1, h2⟩ := h
      subst h1; subst h2
      exact ⟨hq, hrc⟩
  | succ n ih =>
    intro rc w rc' w' hq hrc h
    by_cases hin : notIncluded rc = true
    · by_cases ht : (nowMs env w).1 < d
      · rw [pollLoop_step env d n rc w hin ht] at h
        exact ih _ _ _ _ (by simp [Sleep, TransactionReceipt, nowMs])
          (by simp [Sleep, TransactionReceipt, nowMs]) h
      · rw [pollLoop_late env d (n + 1) rc w hin ht] at h
        simp only [Option.some.injEq, Prod.mk.injEq] at h
        obtain ⟨h1, h2⟩ := h
        subst h1; subst h2
        exact ⟨hq, hrc⟩
    · rw [pollLoop_included env d (n + 1) rc w (by simpa using hin)] at h
      simp only [Option.some.injEq, Prod.mk.injEq] at h
      obtain ⟨h1, h2⟩ := h
      subst h1; subst h2
      exact ⟨hq, hrc⟩

/-! ## Facts about `ConfirmedAsync` -/

/-- A finished call of `ConfirmedAsync` from the initial world, taken apart:
the start reading, the first query, the events of the loop, and then either
the error (nothing added) or the settle sleep and `nil`.  The receipt the final
test looks at is the answer of the last query made. -/
theorem ConfirmedAsync_some (env : Env) (timeoutMs : Int) (fuel : Nat)
    (r : Except String Unit) (w : World)
    (h : ConfirmedAsync env timeoutMs fuel World.init = some (r, w)) :
    ∃ (rc' : Option Receipt) (ext : List Event),
      LoopExt (wrapInt64 (env.clock 0 0 + timeoutMs)) (env.TransactionReceipt 0).1 ext rc' ∧
      (((notIncluded rc' || statusZero rc') = true ∧ r = Except.error "Timeout expired" ∧
          w.trace = Event.now (env.clock 0 0) :: Event.query (env.TransactionReceipt 0).1 :: ext) ∨
       ((notIncluded rc' || statusZero rc') = false ∧ r = Except.ok () ∧
          w.trace = Event.now (env.clock 0 0) :: Event.query (env.TransactionReceipt 0).1 :: ext
            ++ [Event.sleep 250])) ∧
      1 ≤ w.queries ∧ rc' = (env.TransactionReceipt (w.queries - 1)).1 := by
  unfold ConfirmedAsync at h
  split at h
  · exact absurd h (by simp)
  · rename_i rc' w3 hloop
    obtain ⟨ext, hext, hshape⟩ := pollLoop_ext env _ _ _ _ _ _ hloop
    obtain ⟨hq, hrc⟩ := pollLoop_last_query env _ fuel _ _ rc' w3
      (by simp [TransactionReceipt, nowMs, World.init])
      (by simp [TransactionReceipt, nowMs, World.init]) hloop
    refine ⟨rc', ext, hshape, ?_⟩
    have htr : w3.trace =
        Event.now (env.clock 0 0) :: Event.query (env.TransactionReceipt 0).1 :: ext := by
      rw [hext]; simp [TransactionReceipt, nowMs, World.init]
    split at h
    · rename_i hc
      simp only [Option.some.injEq, Prod.mk.injEq] at h
      obtain ⟨h1, h2⟩ := h
      subst h1; subst h2
      exact ⟨Or.inl ⟨hc, rfl, htr⟩, hq, hrc⟩
    · rename_i hc
      simp only [Option.some.injEq, Prod.mk.injEq] at h
      obtain ⟨h1, h2⟩ := h
      subst h1; subst h2
      refine ⟨Or.inr ⟨by simpa using hc, rfl, ?_⟩, hq, hrc⟩
      simp [Sleep, htr]

/-- A receipt that passes the final test is a non-nil receipt with a block
number and a non-zero status. -/
theorem final_test_false (rc : Option Receipt) (h : (notIncluded rc || statusZero rc) = false) :
    ∃ r, rc = some r ∧ r.BlockNumber.isSome = true ∧ r.Status ≠ 0 := by
  cases rc with
  | none => simp [notIncluded] at h
  | some r =>
    refine ⟨r, rfl, ?_⟩
    simp only [notIncluded, statusZero, Bool.or_eq_false_iff, beq_eq_false_iff_ne] at h
    obtain ⟨h1, h2⟩ := h
    refine ⟨?_, h2⟩
    cases hb : r.BlockNumber with
    | none => rw [hb] at h1; simp at h1
    | some b => rfl

/-- With fuel for the iterations that lead to the first included receipt, the
loop finishes, whatever the clock shows: it exits with a receipt that is not
included (deadline reached) or with that first included receipt. -/
theorem pollLoop_reaches (env : Env) (d : Int) :
    ∀ (n fuel : Nat) (rc : Option Receipt) (w : World), n + 1 ≤ fuel →
      (∀ j < n, notIncluded (env.TransactionReceipt (w.queries + j)).1 = true) →
      notIncluded (env.TransactionReceipt (w.queries + n)).1 = false →
      ∃ rc' w', pollLoop env d fuel rc w = some (rc', w') ∧
        (notIncluded rc' = true ∨ rc' = rc ∨ rc' = (env.TransactionReceipt (w.queries + n)).1) := by
  intro n
  induction n with
  | zero =>
    intro fuel rc w hf _ hn
    by_cases hin : notIncluded rc = true
    · by_cases ht : (nowMs env w).1 < d
      · obtain ⟨m, rfl⟩ : ∃ m, fuel = m + 1 := ⟨fuel - 1, by omega⟩
        rw [pollLoop_step env d m rc w hin ht]
        refine ⟨_, _, pollLoop_included env d m _ _ ?_, Or.inr (Or.inr ?_)⟩
        · simpa [TransactionReceipt, nowMs] using hn
        · simp [TransactionReceipt, nowMs]
      · exact ⟨_, _, pollLoop_late env d fuel rc w hin ht, Or.inl hin⟩
    · exact ⟨_, _, pollLoop_included env d fuel rc w (by simpa using hin), Or.inr (Or.inl rfl)⟩
  | succ n ih =>
    intro fuel rc w hf hall hn
    by_cases hin : notIncluded rc = true
    · by_cases ht : (nowMs env w).1 < d
      · obtain ⟨m, rfl⟩ : ∃ m, fuel = m + 1 := ⟨fuel - 1, by omega⟩
        rw [pollLoop_step env d m rc w hin ht]
        have hq : (Sleep 100 (TransactionReceipt env (nowMs env w).2).2).queries = w.queries + 1 := rfl
        obtain ⟨rc', w', hrun, hres⟩ := ih m (TransactionReceipt env (nowMs env w).2).1.1
          (Sleep 100 (TransactionReceipt env (nowMs env w).2).2) (by omega)
          (by
            intro j hj
            rw [hq]
            have := hall (j + 1) (by omega)
            rwa [show w.queries + 1 + j = w.queries + (j + 1) by omega])
          (by
            rw [hq]
            rwa [show w.queries + 1 + n = w.queries + (n + 1) by omega])
        refine ⟨rc', w', hrun, ?_⟩
        rcases hres with h | h | h
        · exact Or.inl h
        · left
          rw [h]
          have := hall 0 (by omega)
          simpa [TransactionReceipt, nowMs] using this
        · right; right
          rw [h, hq]
          rw [show w.queries + 1 + n = w.queries + (n + 1) by omega]
      · exact ⟨_, _, pollLoop_late env d fuel rc w hin ht, Or.inl hin⟩
    · exact ⟨_, _, pollLoop_included env d fuel rc w (by simpa using hin), Or.inr (Or.inl rfl)⟩

/-- On a clock on which sleeping takes time, the loop finishes once the fuel
covers the distance to the deadline in steps of 100 ms. -/
theorem pollLoop_terminates (env : Env) (d : Int) (hclock : AdvancingClock env.clock) :
    ∀ (fuel : Nat) (rc : Option Receipt) (w : World),
      d - (env.clock 0 0 + w.slept) ≤ 100 * (fuel : Int) →
      ∃ res, pollLoop env d fuel rc w = some res := by
  intro fuel
  induction fuel with
  | zero =>
    intro rc w hd
    by_cases hin : notIncluded rc = true
    · have ht : ¬ (nowMs env w).1 < d := by
        have := hclock w.reads w.slept
        simp only [nowMs]
        push_cast at hd
        omega
      exact ⟨_, pollLoop_late env d 0 rc w hin ht⟩
    · exact ⟨_, pollLoop_included env d 0 rc w (by simpa using hin)⟩
  | succ n ih =>
    intro rc w hd
    by_cases hin : notIncluded rc = true
    · by_cases ht : (nowMs env w).1 < d
      · rw [pollLoop_step env d n rc w hin ht]
        apply ih
        have hs : (Sleep 100 (TransactionReceipt env (nowMs env w).2).2).slept = w.slept + 100 := rfl
        rw [hs]
        push_cast at hd ⊢
        omega
      · exact ⟨_, pollLoop_late env d (n + 1) rc w hin ht⟩
    · exact ⟨_, pollLoop_included env d (n + 1) rc w (by simpa using hin)⟩

/-- On a clock on which sleeping takes time, `ConfirmedAsync` returns once the
fuel covers the distance from the start to the deadline. -/
theorem ConfirmedAsync_terminates (env : Env) (timeoutMs : Int)
    (hclock : AdvancingClock env.clock) :
    ∀ fuel : Nat,
      (wrapInt64 (env.clock 0 0 + timeoutMs) - env.clock 0 0).toNat / 100 + 1 ≤ fuel →
      ∃ r w, ConfirmedAsync env timeoutMs fuel World.init = some (r, w) := by
  intro fuel hf
  obtain ⟨⟨rc', w3⟩, hres⟩ := pollLoop_terminates env
    (wrapInt64 ((nowMs env World.init).1 + timeoutMs)) hclock fuel
    (TransactionReceipt env (nowMs env World.init).2).1.1
    (TransactionReceipt env (nowMs env World.init).2).2
    (by
      simp only [nowMs, TransactionReceipt, World.init]
      push_cast
      omega)
  unfold ConfirmedAsync
  rw [hres]
  by_cases hc : (notIncluded rc' || statusZero rc') = true
  · exact ⟨Except.error "Timeout expired", w3, by simp [hc]⟩
  · exact ⟨Except.ok (), Sleep 250 w3, by simp [hc]⟩

/-- The loop finishes once the fuel reaches an evaluation of its guard that is
false: the `n`-th evaluation from the current one holds the receipt `rc`
(`n = 0`) or the answer of the `n`-th query from now on, and reads the clock
after `n` more sleeps of 100 ms. -/
theorem pollLoop_exits (env : Env) (d : Int) :
    ∀ (n fuel : Nat) (rc : Option Receipt) (w : World), n ≤ fuel →
      (notIncluded (if n = 0 then rc else (env.TransactionReceipt (w.queries + n - 1)).1) = false ∨
        ¬ env.clock (w.reads + n) (w.slept + 100 * n) < d) →
      ∃ res, pollLoop env d fuel rc w = some res := by
  intro n
  induction n with
  | zero =>
    intro fuel rc w _ h
    by_cases hin : notIncluded rc = true
    · rcases h with h | h
      · simp [hin] at h
      · exact ⟨_, pollLoop_late env d fuel rc w hin (by simpa [nowMs] using h)⟩
    · exact ⟨_, pollLoop_included env d fuel rc w (by simpa using hin)⟩
  | succ n ih =>
    intro fuel rc w hf h
    by_cases hin : notIncluded rc = true
    · by_cases ht : (nowMs env w).1 < d
      · obtain ⟨m, rfl⟩ : ∃ m, fuel = m + 1 := ⟨fuel - 1, by omega⟩
        rw [pollLoop_step env d m rc w hin ht]
        have hq : (Sleep 100 (TransactionReceipt env (nowMs env w).2).2).queries
            = w.queries + 1 := rfl
        have hr : (Sleep 100 (TransactionReceipt env (nowMs env w).2).2).reads
            = w.reads + 1 := rfl
        have hs : (Sleep 100 (TransactionReceipt env (nowMs env w).2).2).slept
            = w.slept + 100 := rfl
        have hrc : (TransactionReceipt env (nowMs env w).2).1.1
            = (env.TransactionReceipt w.queries).1 := rfl
        apply ih m _ _ (by omega)
        rw [hq, hr, hs, hrc]
        have hheld : (if n = 0 then (env.TransactionReceipt w.queries).1
            else (env.TransactionReceipt (w.queries + 1 + n - 1)).1)
            = (env.TransactionReceipt (w.queries + (n + 1) - 1)).1 := by
          by_cases hn : n = 0
          · subst hn; simp
          · rw [if_neg hn, show w.queries + 1 + n - 1 = w.queries + (n + 1) - 1 by omega]
        rw [hheld, show w.reads + 1 + n = w.reads + (n + 1) by omega,
          show w.slept + 100 + 100 * n = w.slept + 100 * (n + 1) by omega]
        simpa using h
      · exact ⟨_, pollLoop_late env d fuel rc w hin ht⟩
    · exact ⟨_, pollLoop_included env d fuel rc w (by simpa using hin)⟩

/-- `ConfirmedAsync` returns once the fuel reaches an evaluation of the loop
guard that is false: the `n`-th evaluation holds the answer of query `n` and
reads the clock (reading `n + 1`) after `n` sleeps of 100 ms.  No assumption
on the clock is made. -/
theorem ConfirmedAsync_returns (env : Env) (timeoutMs : Int) (fuel n : Nat) (hn : n ≤ fuel)
    (hexit : notIncluded (env.TransactionReceipt n).1 = false ∨
      ¬ env.clock (n + 1) (100 * n) < wrapInt64 (env.clock 0 0 + timeoutMs)) :
    ∃ r w, ConfirmedAsync env timeoutMs fuel World.init = some (r, w) := by
  obtain ⟨⟨rc', w3⟩, hres⟩ := pollLoop_exits env
    (wrapInt64 ((nowMs env World.init).1 + timeoutMs)) n fuel
    (TransactionReceipt env (nowMs env World.init).2).1.1
    (TransactionReceipt env (nowMs env World.init).2).2 hn
    (by
      have hheld : (if n = 0 then (TransactionReceipt env (nowMs env World.init).2).1.1
          else (env.TransactionReceipt
            ((TransactionReceipt env (nowMs env World.init).2).2.queries + n - 1)).1)
          = (env.TransactionReceipt n).1 := by
        by_cases h0 : n = 0
        · subst h0; simp [TransactionReceipt, nowMs, World.init]
        · rw [if_neg h0]
          simp only [TransactionReceipt, nowMs, World.init]
          rw [show 0 + 1 + n - 1 = n by omega]
      rw [hheld]
      rcases hexit with h | h
      · exact Or.inl h
      · right
        simpa [TransactionReceipt, nowMs, World.init, Nat.add_comm] using h)
  unfold ConfirmedAsync
  rw [hres]
  by_cases hc : (notIncluded rc' || statusZero rc') = true
  · exact ⟨Except.error "Timeout expired", w3, by simp [hc]⟩
  · exact ⟨Except.ok (), Sleep 250 w3, by simp [hc]⟩

/-- The result of `ConfirmedAsync` once the loop has finished. -/
theorem ConfirmedAsync_of_loop (env : Env) (timeoutMs : Int) (fuel : Nat)
    (rc' : Option Receipt) (w3 : World)
    (h : pollLoop env (wrapInt64 (env.clock 0 0 + timeoutMs)) fuel (env.TransactionReceipt 0).1
      (TransactionReceipt env (nowMs env World.init).2).2 = some (rc', w3)) :
    ConfirmedAsync env timeoutMs fuel World.init =
      if notIncluded rc' || statusZero rc' then some (Except.error "Timeout expired", w3)
      else some (Except.ok (), Sleep 250 w3) := by
  unfold ConfirmedAsync
  have h' : pollLoop env (wrapInt64 ((nowMs env World.init).1 + timeoutMs)) fuel
      (TransactionReceipt env (nowMs env World.init).2).1.1
      (TransactionReceipt env (nowMs env World.init).2).2 = some (rc', w3) := h
  rw [h']

/-- An `int64` sum that does not overflow is the sum of the integers. -/
theorem wrapInt64_eq (x : Int) (h1 : -(2 ^ 63) ≤ x) (h2 : x < 2 ^ 63) : wrapInt64 x = x := by
  unfold wrapInt64
  omega

/-- Under the simulated clock and a source that never answers an included
receipt, the loop finishes with a receipt that is not included; it does not
sleep when the deadline has been reached at entry, and otherwise stops at the
first multiple of 100 ms at or after the deadline. -/
theorem pollLoop_never_sim (src : Nat → Option Receipt × Option String) (start d : Int)
    (hnever : ∀ k, notIncluded (src k).1 = true) :
    ∀ (fuel : Nat) (rc : Option Receipt) (w : World), notIncluded rc = true →
      d - (start + w.slept) ≤ 100 * (fuel : Int) →
      ∃ rc' w', pollLoop ⟨src, simClock start⟩ d fuel rc w = some (rc', w') ∧
        notIncluded rc' = true ∧
        (d ≤ start + w.slept → w'.slept = w.slept) ∧
        (start + w.slept < d → d ≤ start + w'.slept ∧ start + w'.slept < d + 100) := by
  intro fuel
  induction fuel with
  | zero =>
    intro rc w hin hd
    have ht : ¬ (nowMs ⟨src, simClock start⟩ w).1 < d := by
      simp only [nowMs, simClock]
      push_cast at hd
      omega
    refine ⟨_, _, pollLoop_late _ d 0 rc w hin ht, hin, fun _ => rfl, fun h => ?_⟩
    simp only [nowMs, simClock] at ht
    omega
  | succ n ih =>
    intro rc w hin hd
    by_cases ht : (nowMs ⟨src, simClock start⟩ w).1 < d
    · rw [pollLoop_step _ d n rc w hin ht]
      have hs : (Sleep 100 (TransactionReceipt ⟨src, simClock start⟩
          (nowMs ⟨src, simClock start⟩ w).2).2).slept = w.slept + 100 := rfl
      obtain ⟨rc', w', hrun, hrc, hA, hB⟩ := ih
        (TransactionReceipt ⟨src, simClock start⟩ (nowMs ⟨src, simClock start⟩ w).2).1.1
        (Sleep 100 (TransactionReceipt ⟨src, simClock start⟩
          (nowMs ⟨src, simClock start⟩ w).2).2)
        (hnever _)
        (by rw [hs]; push_cast at hd ⊢; omega)
      rw [hs] at hA hB
      simp only [nowMs, simClock] at ht
      refine ⟨rc', w', hrun, hrc, fun h => absurd ht (by omega), fun _ => ?_⟩
      push_cast at hA hB
      by_cases hc : d ≤ start + (w.slept + 100)
      · have := hA hc
        rw [this]
        push_cast
        omega
      · have := hB (by omega)
        omega
    · refine ⟨_, _, pollLoop_late _ d (n + 1) rc w hin ht, hin, fun _ => rfl, fun h => ?_⟩
      simp only [nowMs, simClock] at ht
      omega

/-- When the first `n` answers from the current query on are not included, the
next one is, and the clock stays before the deadline at the `n + 1` readings
on the way, the loop exits with that `n`-th answer. -/
theorem pollLoop_reaches_before_deadline (env : Env) (d : Int) :
    ∀ (n fuel : Nat) (rc : Option Receipt) (w : World), n + 1 ≤ fuel →
      notIncluded rc = true →
      (∀ j < n, notIncluded (env.TransactionReceipt (w.queries + j)).1 = true) →
      notIncluded (env.TransactionReceipt (w.queries + n)).1 = false →
      (∀ i ≤ n, env.clock (w.reads + i) (w.slept + 100 * i) < d) →
      ∃ w', pollLoop env d fuel rc w = some ((env.TransactionReceipt (w.queries + n)).1, w') := by
  intro n
  induction n with
  | zero =>
    intro fuel rc w hf hin _ hn hclk
    obtain ⟨m, rfl⟩ : ∃ m, fuel = m + 1 := ⟨fuel - 1, by omega⟩
    have ht : (nowMs env w).1 < d := by simpa [nowMs] using hclk 0 (le_refl 0)
    rw [pollLoop_step env d m rc w hin ht]
    exact ⟨_, pollLoop_included env d m _ _ (by simpa [TransactionReceipt, nowMs] using hn)⟩
  | succ n ih =>
    intro fuel rc w hf hin hall hn hclk
    obtain ⟨m, rfl⟩ : ∃ m, fuel = m + 1 := ⟨fuel - 1, by omega⟩
    have ht : (nowMs env w).1 < d := by simpa [nowMs] using hclk 0 (Nat.zero_le _)
    rw [pollLoop_step env d m rc w hin ht]
    have hq : (Sleep 100 (TransactionReceipt env (nowMs env w).2).2).queries = w.queries + 1 := rfl
    have hr : (Sleep 100 (TransactionReceipt env (nowMs env w).2).2).reads = w.reads + 1 := rfl
    have hs : (Sleep 100 (TransactionReceipt env (nowMs env w).2).2).slept = w.slept + 100 := rfl
    obtain ⟨w', hrun⟩ := ih m (TransactionReceipt env (nowMs env w).2).1.1
      (Sleep 100 (TransactionReceipt env (nowMs env w).2).2) (by omega)
      (by
        have := hall 0 (by omega)
        simpa [TransactionReceipt, nowMs] using this)
      (by
        intro j hj
        rw [hq, show w.queries + 1 + j = w.queries + (j + 1) by omega]
        exact hall (j + 1) (by omega))
      (by
        rw [hq, show w.queries + 1 + n = w.queries + (n + 1) by omega]
        exact hn)
      (by
        intro i hi
        rw [hr, hs, show w.reads + 1 + i = w.reads + (i + 1) by omega,
          show w.slept + 100 + 100 * i = w.slept + 100 * (i + 1) by omega]
        exact hclk (i + 1) (by omega))
    rw [hq, show w.queries + 1 + n = w.queries + (n + 1) by omega] at hrun
    exact ⟨w', hrun⟩

/-! ## The claims about `ConfirmedAsync` -/

/-- C1, as stated, fails: a source that answers a reverted receipt (included,
`Status == 0`) and a source that never answers a receipt give the same result,
the error `Timeout expired`; the first run has observed the reverted receipt,
the second has observed no included receipt. -/
theorem C1_reverted_and_timeout_same_error :
    ∃ w1 w2,
      ConfirmedAsync ⟨constSource (some reverted, none), simClock 1000⟩ 500 10 World.init
        = some (Except.error "Timeout expired", w1) ∧
      Event.query (some reverted) ∈ w1.trace ∧
      ConfirmedAsync ⟨constSource (none, some "not found"), simClock 1000⟩ 100 10 World.init
        = some (Except.error "Timeout expired", w2) ∧
      (∀ rq, Event.query rq ∈ w2.trace → notIncluded rq = true) := by
  refine ⟨⟨1, 1, 0, [Event.now 1000, Event.query (some reverted)]⟩,
    ⟨2, 3, 100, [Event.now 1000, Event.query none, Event.now 1000, Event.query none,
      Event.sleep 100, Event.now 1100]⟩, rfl, by decide, rfl, ?_⟩
  intro rq h
  simp at h
  subst h
  rfl

/-- C1, amended: for every timeout, every clock and every status source whose
first included receipt has `Status == 0`, `ConfirmedAsync` returns (with fuel for
the iterations up to that receipt) the error `Timeout expired`, the value it
also returns when the deadline passes, and performs no settle sleep. -/
theorem C1_reverted_returns_timeout_error (env : Env) (timeoutMs : Int) (k : Nat) (rc : Receipt)
    (hbefore : ∀ j < k, notIncluded (env.TransactionReceipt j).1 = true)
    (hk : (env.TransactionReceipt k).1 = some rc)
    (hincl : rc.BlockNumber.isSome = true) (hstatus : rc.Status = 0)
    (fuel : Nat) (hfuel : k ≤ fuel) :
    ∃ w, ConfirmedAsync env timeoutMs fuel World.init = some (Except.error "Timeout expired", w) ∧
      Event.sleep 250 ∉ w.trace := by
  have hrcin : notIncluded (some rc) = false := by
    simp only [notIncluded]
    cases hb : rc.BlockNumber with
    | none => rw [hb] at hincl; simp at hincl
    | some b => rfl
  have hrcz : statusZero (some rc) = true := by simp [statusZero, hstatus]
  have hrun : ∃ w, ConfirmedAsync env timeoutMs fuel World.init
      = some (Except.error "Timeout expired", w) := by
    rcases Nat.eq_zero_or_pos k with hk0 | hkpos
    · subst hk0
      have hl := pollLoop_included env (wrapInt64 (env.clock 0 0 + timeoutMs)) fuel
        (env.TransactionReceipt 0).1 (TransactionReceipt env (nowMs env World.init).2).2
        (by rw [hk]; exact hrcin)
      have htest : (notIncluded (env.TransactionReceipt 0).1
          || statusZero (env.TransactionReceipt 0).1) = true := by
        rw [hk]; simp [hrcz]
      rw [ConfirmedAsync_of_loop env timeoutMs fuel _ _ hl, if_pos htest]
      exact ⟨_, rfl⟩
    · have hq : (TransactionReceipt env (nowMs env World.init).2).2.queries = 1 := rfl
      have h0 : notIncluded (env.TransactionReceipt 0).1 = true := hbefore 0 hkpos
      obtain ⟨rc', w', hl, hres⟩ := pollLoop_reaches env (wrapInt64 (env.clock 0 0 + timeoutMs))
        (k - 1) fuel (env.TransactionReceipt 0).1
        (TransactionReceipt env (nowMs env World.init).2).2 (by omega)
        (by
          intro j hj
          rw [hq]
          exact hbefore (1 + j) (by omega))
        (by
          rw [hq, show 1 + (k - 1) = k by omega, hk]
          exact hrcin)
      have htest : (notIncluded rc' || statusZero rc') = true := by
        rcases hres with h | h | h
        · simp [h]
        · rw [h]; simp [h0]
        · rw [h, hq, show 1 + (k - 1) = k by omega, hk]
          simp [hrcz]
      rw [ConfirmedAsync_of_loop env timeoutMs fuel _ _ hl, if_pos htest]
      exact ⟨_, rfl⟩
  obtain ⟨w, hw⟩ := hrun
  refine ⟨w, hw, ?_⟩
  obtain ⟨rc', ext, hshape, hcase, _, _⟩ := ConfirmedAsync_some env timeoutMs fuel _ w hw
  rcases hcase with ⟨_, _, htr⟩ | ⟨_, hr, _⟩
  · rw [htr]
    simp [hshape.no_settle]
  · exact absurd hr (by simp)

/-- Witness for C1: a source that answers no receipt once and then a reverted
receipt, under the simulated clock. -/
theorem C1_reverted_returns_timeout_error_witness :
    ∃ w, ConfirmedAsync ⟨errorsThen 1 reverted, simClock 1000⟩ 500 3 World.init
        = some (Except.error "Timeout expired", w) ∧ Event.sleep 250 ∉ w.trace :=
  C1_reverted_returns_timeout_error ⟨errorsThen 1 reverted, simClock 1000⟩ 500 1 reverted
    (by decide) rfl rfl rfl 3 (by decide)

/-- C2, as stated, fails: when the included receipt is answered by a query made
inside the loop, the 100 ms sleep of that iteration still follows it.  Here the
first query answers no receipt and the second an included one. -/
theorem C2_poll_sleep_after_included_query :
    ∃ r w pre rq post,
      ConfirmedAsync ⟨errorsThen 1 succeeded, simClock 1000⟩ 500 10 World.init = some (r, w) ∧
      w.trace = pre ++ Event.query rq :: post ∧ notIncluded rq = false ∧
      Event.sleep 100 ∈ post := by
  refine ⟨Except.ok (), ⟨2, 2, 350, [Event.now 1000, Event.query none, Event.now 1000,
      Event.query (some succeeded), Event.sleep 100, Event.sleep 250]⟩,
    [Event.now 1000, Event.query none, Event.now 1000], some succeeded,
    [Event.sleep 100, Event.sleep 250], rfl, rfl, rfl, by decide⟩

/-- C2, amended: once a status query has answered an included receipt,
`ConfirmedAsync` makes no further status query and reads the clock no more.
What follows that query in the trace is exactly: nothing when it is the
initial query (the one before the loop, second event of the trace) and one
100 ms sleep, that of its own iteration, when it was made inside the loop; then
the 250 ms settle sleep when the receipt has a non-zero status.  The call
returns whenever sleeping takes time on the clock. -/
theorem C2_after_included_query (env : Env) (timeoutMs : Int) (fuel : Nat) :
    (AdvancingClock env.clock →
      (wrapInt64 (env.clock 0 0 + timeoutMs) - env.clock 0 0).toNat / 100 + 1 ≤ fuel →
      ∃ r w, ConfirmedAsync env timeoutMs fuel World.init = some (r, w)) ∧
    ∀ (r : Except String Unit) (w : World) (pre post : List Event) (rq : Option Receipt),
      ConfirmedAsync env timeoutMs fuel World.init = some (r, w) →
      w.trace = pre ++ Event.query rq :: post → notIncluded rq = false →
      post = (if pre.length = 1 then [] else [Event.sleep 100]) ++
        (if statusZero rq then [] else [Event.sleep 250]) ∧
      (∀ q, Event.query q ∉ post) ∧ (∀ t, Event.now t ∉ post) := by
  refine ⟨fun hclock hfuel => ConfirmedAsync_terminates env timeoutMs hclock fuel hfuel, ?_⟩
  intro r w pre post rq hrun htrace hin
  have key : post = (if pre.length = 1 then [] else [Event.sleep 100]) ++
      (if statusZero rq then [] else [Event.sleep 250]) := by
    obtain ⟨rc', ext, hshape, hcase, _, _⟩ := ConfirmedAsync_some env timeoutMs fuel r w hrun
    rcases hcase with ⟨htest, _, htr⟩ | ⟨htest, _, htr⟩
    · rw [htr] at htrace
      rcases pre with _ | ⟨x, _ | ⟨y, pre⟩⟩
      · simp at htrace
      · simp only [List.cons_append, List.nil_append, List.cons.injEq, Event.query.injEq] at htrace
        obtain ⟨_, hq, hp⟩ := htrace
        rw [hq] at hshape
        obtain ⟨he, hrc⟩ := hshape.of_included hin
        subst he; subst hrc
        have hz : statusZero rc' = true := by simpa [hin] using htest
        simp [← hp, hz]
      · simp only [List.cons_append, List.cons.injEq] at htrace
        obtain ⟨_, _, he⟩ := htrace
        obtain ⟨hp, hrc, _⟩ := hshape.after_included pre post rq he hin
        subst hrc
        have hz : statusZero rc' = true := by simpa [hin] using htest
        simp [hp, hz]
    · rw [htr] at htrace
      rcases pre with _ | ⟨x, _ | ⟨y, pre⟩⟩
      · simp at htrace
      · simp only [List.cons_append, List.nil_append, List.cons.injEq, Event.query.injEq] at htrace
        obtain ⟨_, hq, hp⟩ := htrace
        rw [hq] at hshape
        obtain ⟨he, hrc⟩ := hshape.of_included hin
        subst he; subst hrc
        have hz : statusZero rc' = false := by
          simp only [Bool.or_eq_false_iff] at htest; exact htest.2
        simp [← hp, hz]
      · simp only [List.cons_append, List.cons.injEq] at htrace
        obtain ⟨_, _, he⟩ := htrace
        rcases List.eq_nil_or_concat post with hpn | ⟨post', z, hpc⟩
        · subst hpn
          have := congrArg List.getLast? he
          simp at this
        · subst hpc
          have he' : ext ++ [Event.sleep 250] = (pre ++ Event.query rq :: post') ++ [z] := by
            rw [he]; simp
          obtain ⟨he1, he2⟩ := List.append_inj' he' rfl
          simp only [List.cons.injEq, and_true] at he2
          obtain ⟨hp, hrc, _⟩ := hshape.after_included pre post' rq he1 hin
          subst hrc
          have hz : statusZero rc' = false := by
            simp only [Bool.or_eq_false_iff] at htest; exact htest.2
          simp [hp, hz, ← he2]
  refine ⟨key, ?_, ?_⟩
  · intro q
    rw [key]
    by_cases h1 : pre.length = 1 <;> by_cases h2 : statusZero rq = true <;> simp [h1, h2]
  · intro t
    rw [key]
    by_cases h1 : pre.length = 1 <;> by_cases h2 : statusZero rq = true <;> simp [h1, h2]

/-- Witness for C2: the run of the counterexample returns, and is taken apart
at its included query. -/
theorem C2_after_included_query_witness :
    (∃ r w, ConfirmedAsync ⟨errorsThen 1 succeeded, simClock 1000⟩ 500 10 World.init
      = some (r, w)) ∧
    [Event.sleep 100, Event.sleep 250] =
      (if [Event.now 1000, Event.query none, Event.now 1000].length = 1 then []
        else [Event.sleep 100]) ++
      (if statusZero (some succeeded) then [] else [Event.sleep 250]) ∧
    (∀ q, Event.query q ∉ [Event.sleep 100, Event.sleep 250]) ∧
    (∀ t, Event.now t ∉ [Event.sleep 100, Event.sleep 250]) :=
  ⟨(C2_after_included_query ⟨errorsThen 1 succeeded, simClock 1000⟩ 500 10).1
      (fun _ s => by simp [simClock]) (by decide),
    (C2_after_included_query ⟨errorsThen 1 succeeded, simClock 1000⟩ 500 10).2 (Except.ok ())
      ⟨2, 2, 350, [Event.now 1000, Event.query none, Event.now 1000,
        Event.query (some succeeded), Event.sleep 100, Event.sleep 250]⟩
      [Event.now 1000, Event.query none, Event.now 1000] [Event.sleep 100, Event.sleep 250]
      (some succeeded) rfl rfl rfl⟩

/-- C3: the 250 ms settle sleep is performed exactly when `ConfirmedAsync`
returns `nil`.  When it returns `nil`, the trace ends with the settle sleep,
which comes after the query that answered the included receipt with non-zero
status (only the 100 ms sleep of that query's iteration may lie between), and
no other settle sleep occurs; when it returns an error, the trace holds no
settle sleep at all.  The call returns whenever sleeping takes time on the
clock. -/
theorem C3_settle_sleep_iff_success (env : Env) (timeoutMs : Int) (fuel : Nat) :
    (AdvancingClock env.clock →
      (wrapInt64 (env.clock 0 0 + timeoutMs) - env.clock 0 0).toNat / 100 + 1 ≤ fuel →
      ∃ r w, ConfirmedAsync env timeoutMs fuel World.init = some (r, w)) ∧
    ∀ (r : Except String Unit) (w : World),
      ConfirmedAsync env timeoutMs fuel World.init = some (r, w) →
      (r = Except.ok () →
        ∃ pre rc mid, w.trace = pre ++ Event.query (some rc) :: (mid ++ [Event.sleep 250]) ∧
          rc.BlockNumber.isSome = true ∧ rc.Status ≠ 0 ∧ Event.sleep 250 ∉ pre ∧
          (mid = [] ∨ mid = [Event.sleep 100])) ∧
      (r ≠ Except.ok () → Event.sleep 250 ∉ w.trace) := by
  refine ⟨fun hclock hfuel => ConfirmedAsync_terminates env timeoutMs hclock fuel hfuel, ?_⟩
  intro r w hrun
  obtain ⟨rc', ext, hshape, hcase, _, _⟩ := ConfirmedAsync_some env timeoutMs fuel r w hrun
  rcases hcase with ⟨_, hr, htr⟩ | ⟨htest, hr, htr⟩
  · refine ⟨fun h => ?_, fun _ => ?_⟩
    · rw [hr] at h; exact absurd h (by simp)
    · rw [htr]; simp [hshape.no_settle]
  · refine ⟨fun _ => ?_, fun h => absurd hr h⟩
    obtain ⟨rcv, hrcv, hblock, hstat⟩ := final_test_false rc' htest
    have hin : notIncluded rc' = false := by
      simp only [Bool.or_eq_false_iff] at htest; exact htest.1
    rcases hshape.exit_included hin with ⟨he, hrc⟩ | ⟨pre0, he, hp⟩
    · refine ⟨[Event.now (env.clock 0 0)], rcv, [], ?_, hblock, hstat, by simp, Or.inl rfl⟩
      rw [htr, he, ← hrc, hrcv]
      simp
    · refine ⟨Event.now (env.clock 0 0) :: Event.query (env.TransactionReceipt 0).1 :: pre0,
        rcv, [Event.sleep 100], ?_, hblock, hstat, by simp [hp], Or.inr rfl⟩
      rw [htr, he, hrcv]
      simp

/-- Witness for C3: a run that returns `nil` after one erroring query, and a
run that returns the error after a timeout of 100 ms. -/
theorem C3_settle_sleep_iff_success_witness :
    (∃ r w, ConfirmedAsync ⟨errorsThen 1 succeeded, simClock 1000⟩ 500 10 World.init
      = some (r, w)) ∧
    (∃ pre rc mid,
      [Event.now 1000, Event.query none, Event.now 1000, Event.query (some succeeded),
        Event.sleep 100, Event.sleep 250]
        = pre ++ Event.query (some rc) :: (mid ++ [Event.sleep 250]) ∧
      rc.BlockNumber.isSome = true ∧ rc.Status ≠ 0 ∧ Event.sleep 250 ∉ pre ∧
      (mid = [] ∨ mid = [Event.sleep 100])) ∧
    Event.sleep 250 ∉ [Event.now 1000, Event.query none, Event.now 1000, Event.query none,
      Event.sleep 100, Event.now 1100] :=
  ⟨(C3_settle_sleep_iff_success ⟨errorsThen 1 succeeded, simClock 1000⟩ 500 10).1
      (fun _ s => by simp [simClock]) (by decide),
    ((C3_settle_sleep_iff_success ⟨errorsThen 1 succeeded, simClock 1000⟩ 500 10).2 (Except.ok ())
      ⟨2, 2, 350, [Event.now 1000, Event.query none, Event.now 1000,
        Event.query (some succeeded), Event.sleep 100, Event.sleep 250]⟩ rfl).1 rfl,
    ((C3_settle_sleep_iff_success ⟨constSource (none, some "not found"), simClock 1000⟩ 100 10).2
      (Except.error "Timeout expired")
      ⟨2, 3, 100, [Event.now 1000, Event.query none, Event.now 1000, Event.query none,
        Event.sleep 100, Event.now 1100]⟩ rfl).2 (by simp)⟩

/-- C4, at the failing input `timeoutMs = 9223372036854775807` (the largest
`int64`, `T ≥ 0`), start time 1700000000000 and a source that never answers a
receipt, under the simulated clock: the `int64` sum `startMs+timeoutMs` wraps
to `-9223370336854775809`, the loop guard is false at its first evaluation, no
sleep is performed, and the timeout error is returned with the clock still at
the start time, which is before `start + T`.  The claim (and the documentation
of `-waitms`, the number of milliseconds to wait before the check is declared
not healthy) has the call return no earlier than `start + T`. -/
theorem C4_deadline_overflow_returns_at_once :
    ∃ w, ConfirmedAsync ⟨constSource (none, some "not found"), simClock 1700000000000⟩
        9223372036854775807 10 World.init = some (Except.error "Timeout expired", w) ∧
      wrapInt64 (1700000000000 + 9223372036854775807) = -9223370336854775809 ∧
      w.slept = 0 ∧
      (0 : Int) ≤ 9223372036854775807 ∧
      simClock 1700000000000 w.reads w.slept < 1700000000000 + 9223372036854775807 := by
  refine ⟨⟨1, 2, 0, [Event.now 1700000000000, Event.query none, Event.now 1700000000000]⟩,
    rfl, by decide, rfl, by decide, by decide⟩

/-- Away from the overflow of the deadline the timeout is kept to within one
poll interval: for every timeout `T ≥ 0` with `start + T + 100` an `int64`
value (so that the deadline and every clock reading of the run are `int64`
values), and a status source that never answers an included receipt, under the
simulated clock `ConfirmedAsync` returns (given fuel for `T / 100 + 1`
iterations) the timeout error, and the clock at return is at least `start + T`
and at most `start + T + 100`. -/
theorem timeout_within_one_interval_without_overflow
    (src : Nat → Option Receipt × Option String)
    (start T : Int) (hT : 0 ≤ T) (hstart : -(2 ^ 63) ≤ start) (hlast : start + T + 100 < 2 ^ 63)
    (hnever : ∀ k, notIncluded (src k).1 = true)
    (fuel : Nat) (hfuel : T.toNat / 100 + 1 ≤ fuel) :
    ∃ w, ConfirmedAsync ⟨src, simClock start⟩ T fuel World.init
        = some (Except.error "Timeout expired", w) ∧
      start + T ≤ simClock start w.reads w.slept ∧
      simClock start w.reads w.slept ≤ start + T + 100 := by
  have hd : wrapInt64 (simClock start 0 0 + T) = start + T := by
    simp only [simClock]
    push_cast
    rw [add_zero]
    exact wrapInt64_eq _ (by omega) (by omega)
  obtain ⟨rc', w', hrun, hrc, hA, hB⟩ := pollLoop_never_sim src start (start + T) hnever fuel
    (src 0).1 (TransactionReceipt ⟨src, simClock start⟩
      (nowMs ⟨src, simClock start⟩ World.init).2).2 (hnever 0)
    (by
      have h0 : (TransactionReceipt ⟨src, simClock start⟩
        (nowMs ⟨src, simClock start⟩ World.init).2).2.slept = 0 := rfl
      rw [h0]
      push_cast
      omega)
  have h0 : (TransactionReceipt ⟨src, simClock start⟩
    (nowMs ⟨src, simClock start⟩ World.init).2).2.slept = 0 := rfl
  rw [h0] at hA hB
  have hloop : pollLoop ⟨src, simClock start⟩
      (wrapInt64 ((⟨src, simClock start⟩ : Env).clock 0 0 + T)) fuel
      ((⟨src, simClock start⟩ : Env).TransactionReceipt 0).1
      (TransactionReceipt ⟨src, simClock start⟩
        (nowMs ⟨src, simClock start⟩ World.init).2).2 = some (rc', w') := by
    rw [show (⟨src, simClock start⟩ : Env).clock 0 0 = simClock start 0 0 from rfl, hd]
    exact hrun
  rw [ConfirmedAsync_of_loop _ T fuel rc' w' hloop, if_pos (by simp [hrc])]
  refine ⟨w', rfl, ?_, ?_⟩
  · simp only [simClock]
    push_cast at hA hB
    by_cases hc : start + T ≤ start + 0
    · have := hA hc
      omega
    · have := hB (by omega)
      omega
  · simp only [simClock]
    push_cast at hA hB
    by_cases hc : start + T ≤ start + 0
    · have := hA hc
      rw [this]
      push_cast
      omega
    · have := hB (by omega)
      omega

/-- A timeout of 250 ms from start time 1000 is kept to within one poll
interval. -/
theorem timeout_within_one_interval_example :
    ∃ w, ConfirmedAsync ⟨constSource (none, some "not found"), simClock 1000⟩ 250 5 World.init
        = some (Except.error "Timeout expired", w) ∧
      1000 + 250 ≤ simClock 1000 w.reads w.slept ∧
      simClock 1000 w.reads w.slept ≤ 1000 + 250 + 100 :=
  timeout_within_one_interval_without_overflow (constSource (none, some "not found")) 1000 250
    (by decide) (by decide) (by decide) (fun _ => rfl) 5 (by decide)

/-- C5, at the failing input `N = 1`, `timeoutMs = 9223372036854775807`, start
time 1700000000000, under the simulated clock: the source errors (nil receipt)
on its first query and would answer an included receipt with non-zero status
on the next, and `N * 100 < T`; but the `int64` sum `startMs+timeoutMs` wraps
to `-9223370336854775809`, the loop guard is false at its first evaluation, the
second query is never made and the timeout error is returned, whereas the
source that answers that receipt on the first query gives `nil`. -/
theorem C5_deadline_overflow_aborts_after_error :
    ∃ w w',
      ConfirmedAsync ⟨errorsThen 1 succeeded, simClock 1700000000000⟩
        9223372036854775807 10 World.init = some (Except.error "Timeout expired", w) ∧
      ((1 : Int) * 100 < 9223372036854775807) ∧
      wrapInt64 (1700000000000 + 9223372036854775807) = -9223370336854775809 ∧
      w.queries = 1 ∧
      ConfirmedAsync ⟨errorsThen 0 succeeded, simClock 1700000000000⟩
        9223372036854775807 10 World.init = some (Except.ok (), w') := by
  refine ⟨⟨1, 2, 0, [Event.now 1700000000000, Event.query none, Event.now 1700000000000]⟩,
    ⟨1, 1, 250, [Event.now 1700000000000, Event.query (some succeeded), Event.sleep 250]⟩,
    rfl, by decide, by decide, rfl, rfl⟩

/-- Away from the overflow of the deadline transient errors are masked: under
the simulated clock with an `int64` start time, if the status source answers a
nil receipt on its first `N` queries and an included receipt with non-zero
status on the next, and either `N = 0` or `N * 100 < T` with the deadline
`start + T` an `int64` value, then `ConfirmedAsync` returns `nil` (given fuel
for `N` iterations), as it does for a source that answers that receipt on the
first query. -/
theorem transient_errors_masked_without_overflow (N : Nat) (rc : Receipt)
    (src src0 : Nat → Option Receipt × Option String) (start T : Int)
    (herr : ∀ k < N, (src k).1 = none) (hN : (src N).1 = some rc)
    (h0 : (src0 0).1 = some rc)
    (hincl : rc.BlockNumber.isSome = true) (hstatus : rc.Status ≠ 0)
    (hstart : IsInt64 start)
    (hdeadline : N = 0 ∨ ((100 * N : Int) < T ∧ start + T < 2 ^ 63))
    (fuel : Nat) (hfuel : N ≤ fuel) :
    ∃ w w', ConfirmedAsync ⟨src, simClock start⟩ T fuel World.init = some (Except.ok (), w) ∧
      ConfirmedAsync ⟨src0, simClock start⟩ T fuel World.init = some (Except.ok (), w') := by
  have hrcin : notIncluded (some rc) = false := by
    simp only [notIncluded]
    cases hb : rc.BlockNumber with
    | none => rw [hb] at hincl; simp at hincl
    | some b => rfl
  have htest : (notIncluded (some rc) || statusZero (some rc)) = false := by
    simp [hrcin, statusZero, hstatus]
  have himm : ∀ s : Nat → Option Receipt × Option String, (s 0).1 = some rc →
      ∃ w, ConfirmedAsync ⟨s, simClock start⟩ T fuel World.init = some (Except.ok (), w) := by
    intro s hs
    have hl := pollLoop_included ⟨s, simClock start⟩
      (wrapInt64 ((⟨s, simClock start⟩ : Env).clock 0 0 + T)) fuel
      ((⟨s, simClock start⟩ : Env).TransactionReceipt 0).1
      (TransactionReceipt ⟨s, simClock start⟩ (nowMs ⟨s, simClock start⟩ World.init).2).2
      (by rw [show ((⟨s, simClock start⟩ : Env).TransactionReceipt 0).1 = some rc from hs]
          exact hrcin)
    rw [ConfirmedAsync_of_loop _ T fuel _ _ hl,
      show ((⟨s, simClock start⟩ : Env).TransactionReceipt 0).1 = some rc from hs,
      if_neg (by simp [htest])]
    exact ⟨_, rfl⟩
  obtain ⟨w', hw'⟩ := himm src0 h0
  rcases Nat.eq_zero_or_pos N with hN0 | hNpos
  · subst hN0
    obtain ⟨w, hw⟩ := himm src hN
    exact ⟨w, w', hw, hw'⟩
  · rcases hdeadline with h | ⟨hlt, hfit⟩
    · omega
    · obtain ⟨hlo, _⟩ := hstart
      have hd : wrapInt64 (simClock start 0 0 + T) = start + T := by
        simp only [simClock]
        push_cast
        rw [add_zero]
        exact wrapInt64_eq _ (by omega) hfit
      have hq : (TransactionReceipt ⟨src, simClock start⟩
          (nowMs ⟨src, simClock start⟩ World.init).2).2.queries = 1 := rfl
      have hr : (TransactionReceipt ⟨src, simClock start⟩
          (nowMs ⟨src, simClock start⟩ World.init).2).2.reads = 1 := rfl
      have hs : (TransactionReceipt ⟨src, simClock start⟩
          (nowMs ⟨src, simClock start⟩ World.init).2).2.slept = 0 := rfl
      obtain ⟨w, hrun⟩ := pollLoop_reaches_before_deadline ⟨src, simClock start⟩ (start + T)
        (N - 1) fuel (src 0).1
        (TransactionReceipt ⟨src, simClock start⟩
          (nowMs ⟨src, simClock start⟩ World.init).2).2 (by omega)
        (by rw [herr 0 hNpos]; rfl)
        (by
          intro j hj
          rw [hq]
          show notIncluded (src (1 + j)).1 = true
          rw [herr (1 + j) (by omega)]; rfl)
        (by
          rw [hq]
          show notIncluded (src (1 + (N - 1))).1 = false
          rw [show 1 + (N - 1) = N by omega, hN]
          exact hrcin)
        (by
          intro i hi
          rw [hr, hs]
          show simClock start (1 + i) (0 + 100 * i) < start + T
          simp only [simClock]
          push_cast
          have : (i : Int) ≤ (N : Int) - 1 := by omega
          omega)
      rw [hq] at hrun
      have hrun' : pollLoop ⟨src, simClock start⟩
          (wrapInt64 ((⟨src, simClock start⟩ : Env).clock 0 0 + T)) fuel
          ((⟨src, simClock start⟩ : Env).TransactionReceipt 0).1
          (TransactionReceipt ⟨src, simClock start⟩
            (nowMs ⟨src, simClock start⟩ World.init).2).2 = some (some rc, w) := by
        rw [show (⟨src, simClock start⟩ : Env).clock 0 0 = simClock start 0 0 from rfl, hd]
        rw [← hN, ← show 1 + (N - 1) = N by omega]
        exact hrun
      rw [ConfirmedAsync_of_loop _ T fuel _ _ hrun', if_neg (by simp [htest])]
      exact ⟨_, w', rfl, hw'⟩

/-- Two erroring queries, then success, with a timeout of 250 ms: the result is
`nil`. -/
theorem transient_errors_masked_example :
    ∃ w w', ConfirmedAsync ⟨errorsThen 2 succeeded, simClock 1000⟩ 250 2 World.init
        = some (Except.ok (), w) ∧
      ConfirmedAsync ⟨errorsThen 0 succeeded, simClock 1000⟩ 250 2 World.init
        = some (Except.ok (), w') :=
  transient_errors_masked_without_overflow 2 succeeded (errorsThen 2 succeeded)
    (errorsThen 0 succeeded) 1000 250 (by decide) rfl rfl rfl (by decide)
    ⟨by decide, by decide⟩ (Or.inr ⟨by decide, by decide⟩) 2 (by decide)

/-- C6: with `timeoutMs = 0`, a clock that never goes backwards and whose first
reading is an `int64` value, `ConfirmedAsync` returns with any fuel, makes
exactly one status query and performs no 100 ms sleep; the result is the final
test applied to the answer of that one query. -/
theorem C6_zero_timeout_single_query (env : Env) (hmono : MonotoneClock env.clock)
    (hrange : IsInt64 (env.clock 0 0)) (fuel : Nat) :
    ∃ w, ConfirmedAsync env 0 fuel World.init =
        some ((if notIncluded (env.TransactionReceipt 0).1
              || statusZero (env.TransactionReceipt 0).1
            then Except.error "Timeout expired" else Except.ok ()), w) ∧
      w.queries = 1 ∧
      w.trace = [Event.now (env.clock 0 0), Event.query (env.TransactionReceipt 0).1] ++
        (if notIncluded (env.TransactionReceipt 0).1 then [Event.now (env.clock 1 0)] else []) ++
        (if notIncluded (env.TransactionReceipt 0).1 || statusZero (env.TransactionReceipt 0).1
          then [] else [Event.sleep 250]) ∧
      Event.sleep 100 ∉ w.trace := by
  have hd : wrapInt64 (env.clock 0 0 + 0) = env.clock 0 0 := by
    rw [add_zero]
    exact wrapInt64_eq _ hrange.1 hrange.2
  have key : ∃ w, ConfirmedAsync env 0 fuel World.init =
        some ((if notIncluded (env.TransactionReceipt 0).1
              || statusZero (env.TransactionReceipt 0).1
            then Except.error "Timeout expired" else Except.ok ()), w) ∧
      w.queries = 1 ∧
      w.trace = [Event.now (env.clock 0 0), Event.query (env.TransactionReceipt 0).1] ++
        (if notIncluded (env.TransactionReceipt 0).1 then [Event.now (env.clock 1 0)] else []) ++
        (if notIncluded (env.TransactionReceipt 0).1 || statusZero (env.TransactionReceipt 0).1
          then [] else [Event.sleep 250]) := by
    by_cases hin : notIncluded (env.TransactionReceipt 0).1 = true
    · have ht : ¬ (nowMs env (TransactionReceipt env (nowMs env World.init).2).2).1
          < wrapInt64 (env.clock 0 0 + 0) := by
        rw [hd]
        have := hmono 0 1 0 0 (by omega) (le_refl 0)
        simpa [nowMs, TransactionReceipt, World.init] using this
      have hl := pollLoop_late env (wrapInt64 (env.clock 0 0 + 0)) fuel
        (env.TransactionReceipt 0).1 (TransactionReceipt env (nowMs env World.init).2).2 hin ht
      rw [ConfirmedAsync_of_loop env 0 fuel _ _ hl]
      simp [hin, nowMs, TransactionReceipt, World.init]
    · have hin' : notIncluded (env.TransactionReceipt 0).1 = false := by simpa using hin
      have hl := pollLoop_included env (wrapInt64 (env.clock 0 0 + 0)) fuel
        (env.TransactionReceipt 0).1 (TransactionReceipt env (nowMs env World.init).2).2 hin'
      rw [ConfirmedAsync_of_loop env 0 fuel _ _ hl]
      by_cases hz : statusZero (env.TransactionReceipt 0).1 = true
      · simp [hin', hz, nowMs, TransactionReceipt, World.init]
      · simp [hin', hz, nowMs, TransactionReceipt, World.init, Sleep]
  obtain ⟨w, hrun, hq, htr⟩ := key
  refine ⟨w, hrun, hq, htr, ?_⟩
  rw [htr]
  by_cases hin : notIncluded (env.TransactionReceipt 0).1 = true <;>
    by_cases hz : statusZero (env.TransactionReceipt 0).1 = true <;> simp [hin, hz]

/-- Witness for C6: a source that would answer an included receipt on its
second query, never asked for it. -/
theorem C6_zero_timeout_single_query_witness :
    ∃ w, ConfirmedAsync ⟨errorsThen 1 succeeded, simClock 1000⟩ 0 0 World.init =
        some ((if notIncluded (errorsThen 1 succeeded 0).1
              || statusZero (errorsThen 1 succeeded 0).1
            then Except.error "Timeout expired" else Except.ok ()), w) ∧
      w.queries = 1 ∧
      w.trace = [Event.now (simClock 1000 0 0), Event.query (errorsThen 1 succeeded 0).1] ++
        (if notIncluded (errorsThen 1 succeeded 0).1 then [Event.now (simClock 1000 1 0)]
          else []) ++
        (if notIncluded (errorsThen 1 succeeded 0).1 || statusZero (errorsThen 1 succeeded 0).1
          then [] else [Event.sleep 250]) ∧
      Event.sleep 100 ∉ w.trace :=
  C6_zero_timeout_single_query ⟨errorsThen 1 succeeded, simClock 1000⟩
    (fun _ _ s t _ hst => by simp only [simClock]; omega) ⟨by decide, by decide⟩ 0

/-- C7: for every timeout, every status source and every clock, a call of
`ConfirmedAsync` that returns, returns `nil` or the error `Timeout expired`; it
returns `nil` only if the last status query it made answered a non-nil receipt
with a block number and a non-zero status (no query event follows that answer
in the trace); and if no query ever answers an included receipt, in particular
if every query errors with a nil receipt, the result is the error.  The call
does return: with any clock, as soon as the fuel reaches an evaluation of the
loop guard at which the receipt is included or the clock is not before the
deadline; and on every clock on which sleeping takes time, given fuel for the
distance to the deadline. -/
theorem C7_success_only_on_included_success (env : Env) (timeoutMs : Int) (fuel : Nat) :
    (∀ n, n ≤ fuel →
      (notIncluded (env.TransactionReceipt n).1 = false ∨
        ¬ env.clock (n + 1) (100 * n) < wrapInt64 (env.clock 0 0 + timeoutMs)) →
      ∃ r w, ConfirmedAsync env timeoutMs fuel World.init = some (r, w)) ∧
    (AdvancingClock env.clock →
      (wrapInt64 (env.clock 0 0 + timeoutMs) - env.clock 0 0).toNat / 100 + 1 ≤ fuel →
      ∃ r w, ConfirmedAsync env timeoutMs fuel World.init = some (r, w)) ∧
    ∀ (r : Except String Unit) (w : World),
      ConfirmedAsync env timeoutMs fuel World.init = some (r, w) →
      (r = Except.ok () ∨ r = Except.error "Timeout expired") ∧
      1 ≤ w.queries ∧
      (r = Except.ok () →
        ∃ rc, (env.TransactionReceipt (w.queries - 1)).1 = some rc ∧
          rc.BlockNumber.isSome = true ∧ rc.Status ≠ 0 ∧
          ∃ pre post, w.trace = pre ++ Event.query (some rc) :: post ∧
            ∀ q, Event.query q ∉ post) ∧
      ((∀ k, notIncluded (env.TransactionReceipt k).1 = true) →
        r = Except.error "Timeout expired") := by
  refine ⟨fun n hn hexit => ConfirmedAsync_returns env timeoutMs fuel n hn hexit,
    fun hclock hfuel => ConfirmedAsync_terminates env timeoutMs hclock fuel hfuel, ?_⟩
  intro r w hrun
  obtain ⟨rc', ext, hshape, hcase, hq, hrc⟩ := ConfirmedAsync_some env timeoutMs fuel r w hrun
  refine ⟨?_, hq, ?_, ?_⟩
  · rcases hcase with ⟨_, hr, _⟩ | ⟨_, hr, _⟩
    · exact Or.inr hr
    · exact Or.inl hr
  · intro hok
    rcases hcase with ⟨_, hr, _⟩ | ⟨htest, _, htr⟩
    · rw [hr] at hok; exact absurd hok (by simp)
    · obtain ⟨rcv, hrcv, hblock, hstat⟩ := final_test_false rc' htest
      have hin : notIncluded rc' = false := by
        simp only [Bool.or_eq_false_iff] at htest; exact htest.1
      refine ⟨rcv, by rw [← hrc, hrcv], hblock, hstat, ?_⟩
      rcases hshape.exit_included hin with ⟨he, hrc0⟩ | ⟨pre0, he, _⟩
      · refine ⟨[Event.now (env.clock 0 0)], [Event.sleep 250], ?_, by simp⟩
        rw [htr, he, ← hrc0, hrcv]
        simp
      · refine ⟨Event.now (env.clock 0 0) :: Event.query (env.TransactionReceipt 0).1 :: pre0,
          [Event.sleep 100, Event.sleep 250], ?_, by simp⟩
        rw [htr, he, hrcv]
        simp
  · intro hnever
    rcases hcase with ⟨_, hr, _⟩ | ⟨htest, _, _⟩
    · exact hr
    · have := hnever (w.queries - 1)
      rw [← hrc] at this
      simp [this] at htest

/-- Witness for C7: a source whose every query errors with a nil receipt returns
the error at the fourth evaluation of the guard (clock 1300, deadline 1250); a
run on a clock set back by a day after the start returns `nil`, its last query
being the one that answered the included receipt. -/
theorem C7_success_only_on_included_success_witness :
    (∃ r w, ConfirmedAsync ⟨constSource (none, some "not found"), simClock 1000⟩ 250 3 World.init
      = some (r, w)) ∧
    (∃ r w, ConfirmedAsync ⟨constSource (none, some "not found"), simClock 1000⟩ 250 3 World.init
      = some (r, w)) ∧
    (∃ rc, (errorsThen 1 succeeded (2 - 1)).1 = some rc ∧
      rc.BlockNumber.isSome = true ∧ rc.Status ≠ 0 ∧
      ∃ pre post, [Event.now 1700000000000, Event.query none, Event.now 1699913600000,
          Event.query (some succeeded), Event.sleep 100, Event.sleep 250]
          = pre ++ Event.query (some rc) :: post ∧
        ∀ q, Event.query q ∉ post) ∧
    ((∀ k, notIncluded (constSource (none, some "not found") k).1 = true) →
      (Except.error "Timeout expired" : Except String Unit) = Except.error "Timeout expired") :=
  ⟨(C7_success_only_on_included_success
      ⟨constSource (none, some "not found"), simClock 1000⟩ 250 3).1 3 (le_refl 3)
      (Or.inr (by decide)),
    (C7_success_only_on_included_success
      ⟨constSource (none, some "not found"), simClock 1000⟩ 250 3).2.1
      (fun _ s => by simp [simClock]) (by decide),
    ((C7_success_only_on_included_success
      ⟨errorsThen 1 succeeded, setBackClock⟩ 5000 10).2.2 (Except.ok ())
      ⟨2, 2, 350, [Event.now 1700000000000, Event.query none, Event.now 1699913600000,
        Event.query (some succeeded), Event.sleep 100, Event.sleep 250]⟩ rfl).2.2.1 rfl,
    ((C7_success_only_on_included_success
      ⟨constSource (none, some "not found"), simClock 1000⟩ 100 10).2.2
      (Except.error "Timeout expired")
      ⟨2, 3, 100, [Event.now 1000, Event.query none, Event.now 1000, Event.query none,
        Event.sleep 100, Event.now 1100]⟩ rfl).2.2.2⟩

/-! ## The claims about `main` -/

/-- C8: in a run of `main` in which every setup step, the baseline read, the
tick submission, the tick confirmation and the post read succeed, with the
counter read as `b` before and `e` after the tick, the exit code is 0 if and
only if `b < e` over the integers; when `e ≤ b` the exit code is 1 and the one
message written to stderr is the `did not advance` message; when `b < e` the
exit code is 0 and nothing is written to stderr. -/
theorem C8_exit_zero_iff_counter_advanced (f : Flags) (o : Outcomes) (b e : Int)
    (hsetup : ∀ s ∈ stepsOf f, isSetup s = true → fails o s = false)
    (hb : o.CounterBegin = Except.ok b) (ht : o.Tick = Except.ok ())
    (hct : o.ConfirmTick = Except.ok ()) (he : o.CounterEnd = Except.ok e) :
    ((main f o).code = 0 ↔ b < e) ∧
    (e ≤ b → (main f o).code = 1 ∧ ∃ addr, (main f o).stderr =
      ["HealthCheck tick counter did not advance for contract at address: " ++ addr ++ "\n"]) ∧
    (b < e → (main f o).code = 0 ∧ (main f o).stderr = []) := by
  rcases o with ⟨d, h, dp, cd, ha, nh, ct, cb, tk, ctk, ce⟩
  simp only at hb ht hct he
  subst hb; subst ht; subst hct; subst he
  have h1 := hsetup Step.Dial (by simp [stepsOf]) rfl
  have h2 := hsetup Step.HexToECDSA (by simp [stepsOf]) rfl
  rcases d with x | _
  · simp [fails, isError] at h1
  rcases h with x | _
  · simp [fails, isError] at h2
  by_cases hc : f.checker = ""
  · have h3 := hsetup Step.DeployHealthCheck (by simp [stepsOf, hc]) rfl
    have h4 := hsetup Step.ConfirmDeploy (by simp [stepsOf, hc]) rfl
    rcases dp with x | a
    · simp [fails, isError] at h3
    rcases cd with x | _
    · simp [fails, isError] at h4
    by_cases hlt : e > b
    · have hle : ¬ e ≤ b := by omega
      simp [main, mainCheck, hc, hlt, hle]
    · have hlt' : ¬ b < e := by omega
      refine ⟨by simp [main, mainCheck, hc, hlt'], fun _ => ⟨by simp [main, mainCheck, hc, hlt'],
        a, by simp [main, mainCheck, hc, hlt']⟩, fun h => absurd h hlt'⟩
  · have h3 := hsetup Step.NewHealthCheck (by simp [stepsOf, hc]) rfl
    have h4 := hsetup Step.CounterTouch (by simp [stepsOf, hc]) rfl
    rcases nh with x | _
    · simp [fails, isError] at h3
    rcases ct with x | _
    · simp [fails, isError] at h4
    by_cases hlt : e > b
    · have hle : ¬ e ≤ b := by omega
      simp [main, mainCheck, hc, hlt, hle]
    · have hlt' : ¬ b < e := by omega
      refine ⟨by simp [main, mainCheck, hc, hlt'], fun _ => ⟨by simp [main, mainCheck, hc, hlt'],
        ha, by simp [main, mainCheck, hc, hlt']⟩, fun h => absurd h hlt'⟩

/-- Witness for C8: baseline 5 and post counter 5 on an existing contract: exit
code 1 with the `did not advance` message. -/
theorem C8_exit_zero_iff_counter_advanced_witness :
    ((main ⟨"http://node", "key", 5000, "0x1"⟩ (allOk 5 5)).code = 0 ↔ (5 : Int) < 5) ∧
    ((5 : Int) ≤ 5 → (main ⟨"http://node", "key", 5000, "0x1"⟩ (allOk 5 5)).code = 1 ∧
      ∃ addr, (main ⟨"http://node", "key", 5000, "0x1"⟩ (allOk 5 5)).stderr =
        ["HealthCheck tick counter did not advance for contract at address: " ++ addr ++ "\n"]) ∧
    ((5 : Int) < 5 → (main ⟨"http://node", "key", 5000, "0x1"⟩ (allOk 5 5)).code = 0 ∧
      (main ⟨"http://node", "key", 5000, "0x1"⟩ (allOk 5 5)).stderr = []) :=
  C8_exit_zero_iff_counter_advanced ⟨"http://node", "key", 5000, "0x1"⟩ (allOk 5 5) 5 5
    (by decide) rfl rfl rfl rfl

/-- C9: the exit code of `main` is 2 exactly when the first failing step is a
setup step, 1 exactly when it is a step of the check proper (baseline read, tick
submission, tick confirmation, post read, comparison), 0 exactly when no step
fails; no other exit code is produced. -/
theorem C9_exit_code_classification (f : Flags) (o : Outcomes) :
    ((main f o).code = 2 ↔ ∃ s, firstFailing f o = some s ∧ isSetup s = true) ∧
    ((main f o).code = 1 ↔ ∃ s, firstFailing f o = some s ∧ isCheck s = true) ∧
    ((main f o).code = 0 ↔ firstFailing f o = none) ∧
    ((main f o).code = 0 ∨ (main f o).code = 1 ∨ (main f o).code = 2) := by
  rcases o with ⟨d, h, dp, cd, ha, nh, ct, cb, tk, ctk, ce⟩
  by_cases hc : f.checker = ""
  · rcases d with e | _
    · simp [main, mainCheck, firstFailing, stepsOf, fails, isError, isSetup, isCheck, hc]
    rcases h with e | _
    · simp [main, mainCheck, firstFailing, stepsOf, fails, isError, isSetup, isCheck, hc]
    rcases dp with e | a
    · simp [main, mainCheck, firstFailing, stepsOf, fails, isError, isSetup, isCheck, hc]
    rcases cd with e | _
    · simp [main, mainCheck, firstFailing, stepsOf, fails, isError, isSetup, isCheck, hc]
    rcases cb with e | b
    · simp [main, mainCheck, firstFailing, stepsOf, fails, isError, isSetup, isCheck, hc]
    rcases tk with e | _
    · simp [main, mainCheck, firstFailing, stepsOf, fails, isError, isSetup, isCheck, hc]
    rcases ctk with e | _
    · simp [main, mainCheck, firstFailing, stepsOf, fails, isError, isSetup, isCheck, hc]
    rcases ce with e | e
    · simp [main, mainCheck, firstFailing, stepsOf, fails, isError, isSetup, isCheck, hc]
    by_cases hlt : e > b
    · have hle : ¬ e ≤ b := by omega
      simp [main, mainCheck, firstFailing, stepsOf, fails, isError, isSetup, isCheck, hc, hlt, hle]
    · have hle : e ≤ b := by omega
      simp [main, mainCheck, firstFailing, stepsOf, fails, isError, isSetup, isCheck, hc, hlt, hle]
  · rcases d with e | _
    · simp [main, mainCheck, firstFailing, stepsOf, fails, isError, isSetup, isCheck, hc]
    rcases h with e | _
    · simp [main, mainCheck, firstFailing, stepsOf, fails, isError, isSetup, isCheck, hc]
    rcases nh with e | _
    · simp [main, mainCheck, firstFailing, stepsOf, fails, isError, isSetup, isCheck, hc]
    rcases ct with e | _
    · simp [main, mainCheck, firstFailing, stepsOf, fails, isError, isSetup, isCheck, hc]
    rcases cb with e | b
    · simp [main, mainCheck, firstFailing, stepsOf, fails, isError, isSetup, isCheck, hc]
    rcases tk with e | _
    · simp [main, mainCheck, firstFailing, stepsOf, fails, isError, isSetup, isCheck, hc]
    rcases ctk with e | _
    · simp [main, mainCheck, firstFailing, stepsOf, fails, isError, isSetup, isCheck, hc]
    rcases ce with e | e
    · simp [main, mainCheck, firstFailing, stepsOf, fails, isError, isSetup, isCheck, hc]
    by_cases hlt : e > b
    · have hle : ¬ e ≤ b := by omega
      simp [main, mainCheck, firstFailing, stepsOf, fails, isError, isSetup, isCheck, hc, hlt, hle]
    · have hle : e ≤ b := by omega
      simp [main, mainCheck, firstFailing, stepsOf, fails, isError, isSetup, isCheck, hc, hlt, hle]

/-- The calls issued by `main` are those of a run that stops at its first
failing step. -/
theorem main_calls (f : Flags) (o : Outcomes) :
    (main f o).calls = callsUpToFirstFailing f o := by
  rcases o with ⟨d, h, dp, cd, ha, nh, ct, cb, tk, ctk, ce⟩
  by_cases hc : f.checker = ""
  · rcases d with e | _
    · simp [main, mainCheck, callsUpToFirstFailing, stepsOf, fails, isError, hc]
    rcases h with e | _
    · simp [main, mainCheck, callsUpToFirstFailing, stepsOf, fails, isError, hc]
    rcases dp with e | a
    · simp [main, mainCheck, callsUpToFirstFailing, stepsOf, fails, isError, hc]
    rcases cd with e | _
    · simp [main, mainCheck, callsUpToFirstFailing, stepsOf, fails, isError, hc]
    rcases cb with e | b
    · simp [main, mainCheck, callsUpToFirstFailing, stepsOf, fails, isError, hc]
    rcases tk with e | _
    · simp [main, mainCheck, callsUpToFirstFailing, stepsOf, fails, isError, hc]
    rcases ctk with e | _
    · simp [main, mainCheck, callsUpToFirstFailing, stepsOf, fails, isError, hc]
    rcases ce with e | e
    · simp [main, mainCheck, callsUpToFirstFailing, stepsOf, fails, isError, hc]
    by_cases hlt : e > b
    · have hle : ¬ e ≤ b := by omega
      simp [main, mainCheck, callsUpToFirstFailing, stepsOf, fails, isError, hc, hlt, hle]
    · have hle : e ≤ b := by omega
      simp [main, mainCheck, callsUpToFirstFailing, stepsOf, fails, isError, hc, hlt, hle]
  · rcases d with e | _
    · simp [main, mainCheck, callsUpToFirstFailing, stepsOf, fails, isError, hc]
    rcases h with e | _
    · simp [main, mainCheck, callsUpToFirstFailing, stepsOf, fails, isError, hc]
    rcases nh with e | _
    · simp [main, mainCheck, callsUpToFirstFailing, stepsOf, fails, isError, hc]
    rcases ct with e | _
    · simp [main, mainCheck, callsUpToFirstFailing, stepsOf, fails, isError, hc]
    rcases cb with e | b
    · simp [main, mainCheck, callsUpToFirstFailing, stepsOf, fails, isError, hc]
    rcases tk with e | _
    · simp [main, mainCheck, callsUpToFirstFailing, stepsOf, fails, isError, hc]
    rcases ctk with e | _
    · simp [main, mainCheck, callsUpToFirstFailing, stepsOf, fails, isError, hc]
    rcases ce with e | e
    · simp [main, mainCheck, callsUpToFirstFailing, stepsOf, fails, isError, hc]
    by_cases hlt : e > b
    · have hle : ¬ e ≤ b := by omega
      simp [main, mainCheck, callsUpToFirstFailing, stepsOf, fails, isError, hc, hlt, hle]
    · have hle : e ≤ b := by omega
      simp [main, mainCheck, callsUpToFirstFailing, stepsOf, fails, isError, hc, hlt, hle]

/-- C10: `main` stops at its first failing step and calls no later
collaborator: the calls issued are the steps up to and including the first
failing one.  If the tick confirmation is reached and answers an error, the
exit code is 1 and the post read is not issued; if the validating read of an
existing address is reached and fails, the exit code is 2 and neither the
baseline read nor the tick submission (nor anything after them) is issued.  No
call site is visited twice, so the tick transaction is submitted at most once
in any run. -/
theorem C10_no_call_after_first_failure (f : Flags) (o : Outcomes) :
    (main f o).calls = callsUpToFirstFailing f o ∧
    (Step.ConfirmTick ∈ (main f o).calls → isError o.ConfirmTick = true →
      (main f o).code = 1 ∧ Step.CounterEnd ∉ (main f o).calls) ∧
    (Step.CounterTouch ∈ (main f o).calls → isError o.CounterTouch = true →
      (main f o).code = 2 ∧ Step.CounterBegin ∉ (main f o).calls ∧
      Step.Tick ∉ (main f o).calls ∧ Step.ConfirmTick ∉ (main f o).calls ∧
      Step.CounterEnd ∉ (main f o).calls) ∧
    (main f o).calls.Nodup ∧ (main f o).calls.count Step.Tick ≤ 1 := by
  refine ⟨main_calls f o, ?_⟩
  rcases o with ⟨d, h, dp, cd, ha, nh, ct, cb, tk, ctk, ce⟩
  by_cases hc : f.checker = ""
  · rcases d with e | _
    · simp [main, mainCheck, isError, hc]
    rcases h with e | _
    · simp [main, mainCheck, isError, hc]
    rcases dp with e | a
    · simp [main, mainCheck, isError, hc]
    rcases cd with e | _
    · simp [main, mainCheck, isError, hc]
    rcases cb with e | b
    · simp [main, mainCheck, isError, hc]
    rcases tk with e | _
    · simp [main, mainCheck, isError, hc]
    rcases ctk with e | _
    · simp [main, mainCheck, isError, hc]
    rcases ce with e | e
    · simp [main, mainCheck, isError, hc]
    by_cases hlt : e > b
    · simp [main, mainCheck, isError, hc, hlt]
    · simp [main, mainCheck, isError, hc, hlt]
  · rcases d with e | _
    · simp [main, mainCheck, isError, hc]
    rcases h with e | _
    · simp [main, mainCheck, isError, hc]
    rcases nh with e | _
    · simp [main, mainCheck, isError, hc]
    rcases ct with e | _
    · simp [main, mainCheck, isError, hc]
    rcases cb with e | b
    · simp [main, mainCheck, isError, hc]
    rcases tk with e | _
    · simp [main, mainCheck, isError, hc]
    rcases ctk with e | _
    · simp [main, mainCheck, isError, hc]
    rcases ce with e | e
    · simp [main, mainCheck, isError, hc]
    by_cases hlt : e > b
    · simp [main, mainCheck, isError, hc, hlt]
    · simp [main, mainCheck, isError, hc, hlt]

/-- Witness for C10: the tick confirmation times out after a fresh deployment
(exit code 1, no post read), and the validating read of an existing address
fails (exit code 2, no baseline read, no tick). -/
theorem C10_no_call_after_first_failure_witness :
    ((main ⟨"http://node", "key", 5000, ""⟩
        { allOk 5 6 with ConfirmTick := Except.error "Timeout expired" }).code = 1 ∧
      Step.CounterEnd ∉ (main ⟨"http://node", "key", 5000, ""⟩
        { allOk 5 6 with ConfirmTick := Except.error "Timeout expired" }).calls) ∧
    ((main ⟨"http://node", "key", 5000, "0x1"⟩
        { allOk 5 6 with CounterTouch := Except.error "no contract code" }).code = 2 ∧
      Step.CounterBegin ∉ (main ⟨"http://node", "key", 5000, "0x1"⟩
        { allOk 5 6 with CounterTouch := Except.error "no contract code" }).calls ∧
      Step.Tick ∉ (main ⟨"http://node", "key", 5000, "0x1"⟩
        { allOk 5 6 with CounterTouch := Except.error "no contract code" }).calls ∧
      Step.ConfirmTick ∉ (main ⟨"http://node", "key", 5000, "0x1"⟩
        { allOk 5 6 with CounterTouch := Except.error "no contract code" }).calls ∧
      Step.CounterEnd ∉ (main ⟨"http://node", "key", 5000, "0x1"⟩
        { allOk 5 6 with CounterTouch := Except.error "no contract code" }).calls) :=
  ⟨(C10_no_call_after_first_failure ⟨"http://node", "key", 5000, ""⟩
      { allOk 5 6 with ConfirmTick := Except.error "Timeout expired" }).2.1 (by decide) rfl,
    (C10_no_call_after_first_failure ⟨"http://node", "key", 5000, "0x1"⟩
      { allOk 5 6 with CounterTouch := Except.error "no contract code" }).2.2.1 (by decide) rfl⟩

end HealthCheck

namespace TimeServer

/-! ## Facts about the matcher -/

theorem run_rep_zero (r b : Regex) (c : Cursor) :
    (Regex.seq (Regex.rep 0 r) b).run c = b.run c := by
  simp [Regex.run, repeatStep]

theorem run_rep_succ (n : Nat) (r b : Regex) (c : Cursor) :
    (Regex.seq (Regex.rep (n + 1) r) b).run c
      = (Regex.seq r (Regex.seq (Regex.rep n r) b)).run c := by
  simp [Regex.run, repeatStep, List.flatMap_assoc]

theorem matches_range_cons (lo hi : Char) (b : Regex) (p : Nat) (x : Char) (xs : List Char) :
    (!((Regex.seq (Regex.range lo hi) b).run ⟨p, x :: xs⟩).isEmpty)
      = (decide (lo.val ≤ x.val ∧ x.val ≤ hi.val) && !(b.run ⟨p + 1, xs⟩).isEmpty) := by
  by_cases h : lo.val ≤ x.val ∧ x.val ≤ hi.val <;> simp [Regex.run, h]

theorem matches_lit_cons (a : Char) (b : Regex) (p : Nat) (x : Char) (xs : List Char) :
    (!((Regex.seq (Regex.lit a) b).run ⟨p, x :: xs⟩).isEmpty)
      = ((x == a) && !(b.run ⟨p + 1, xs⟩).isEmpty) := by
  by_cases h : x = a <;> simp [Regex.run, h]

theorem matches_range_nil (lo hi : Char) (b : Regex) (p : Nat) :
    (!((Regex.seq (Regex.range lo hi) b).run ⟨p, []⟩).isEmpty) = false := by
  simp [Regex.run]

theorem matches_lit_nil (a : Char) (b : Regex) (p : Nat) :
    (!((Regex.seq (Regex.lit a) b).run ⟨p, []⟩).isEmpty) = false := by
  simp [Regex.run]

theorem matches_endText (p : Nat) (xs : List Char) :
    (!(Regex.endText.run ⟨p, xs⟩).isEmpty) = xs.isEmpty := by
  cases xs <;> simp [Regex.run]

/-- An expression that starts with `^` can only match from the beginning of
the text, so the search over all starting positions comes down to position 0. -/
theorem MatchString_beginText (b : Regex) (s : List Char) :
    MatchString (Regex.seq Regex.beginText b) s = !(b.run ⟨0, s⟩).isEmpty := by
  have hrun : ∀ i, (Regex.seq Regex.beginText b).run ⟨i, s.drop i⟩
      = if i = 0 then b.run ⟨0, s⟩ else [] := by
    intro i
    by_cases h : i = 0
    · subst h; simp [Regex.run]
    · simp [Regex.run, h]
  unfold MatchString
  rw [Bool.eq_iff_iff, List.any_eq_true]
  constructor
  · rintro ⟨i, _, hi⟩
    rw [hrun i] at hi
    by_cases h : i = 0
    · simpa [h] using hi
    · simp [h] at hi
  · intro h
    exact ⟨0, by simp, by rw [hrun 0]; simpa using h⟩

/-- The pattern of `changeTime` matches exactly the texts of the form
`DDDD-DD-DD DD:DD:DD`. -/
theorem MatchString_timePattern (tm : List Char) :
    MatchString timePattern tm = isTimestampForm tm := by
  unfold timePattern
  rw [MatchString_beginText]
  unfold isTimestampForm
  iterate 19
    (rcases tm with _ | ⟨c, tm⟩
     · simp [run_rep_zero, run_rep_succ, matches_range_cons, matches_lit_cons, matches_range_nil,
         matches_lit_nil, matches_endText, digit, fitsTemplate, Char.isDigit])
  rcases tm with _ | ⟨c, tm⟩ <;>
    simp [run_rep_zero, run_rep_succ, matches_range_cons, matches_lit_cons, matches_range_nil,
      matches_lit_nil, matches_endText, digit, fitsTemplate, Char.isDigit]

/-- A text that fits a template has the length of the template. -/
theorem fitsTemplate_length :
    ∀ (ts cs : List Char), fitsTemplate ts cs = true → cs.length = ts.length := by
  intro ts
  induction ts with
  | nil =>
    intro cs h
    cases cs with
    | nil => rfl
    | cons c cs => simp [fitsTemplate] at h
  | cons t ts ih =>
    intro cs h
    cases cs with
    | nil => simp [fitsTemplate] at h
    | cons c cs =>
      simp only [fitsTemplate, Bool.and_eq_true] at h
      simp [ih cs h.2]

/-- Removing the leading `/` of a path that starts with one. -/
theorem TrimPrefix_slash (rest : List Char) : TrimPrefix ('/' :: rest) ['/'] = rest := by
  simp [TrimPrefix, List.isPrefixOf]

/-! ## The claim about `changeTime` -/

/-- C11: for every request path, with `tm` the path without its leading `/`:
`changeTime` runs `timedatectl set-time tm`, once, if and only if `tm` is
exactly of the form `DDDD-DD-DD DD:DD:DD` (19 characters), and runs no command
otherwise; the response reports `changed: true` only if the form is met and the
command succeeded; and whenever the form is not met or the command fails, the
response reports `changed: false` with `oldTime` and `newTime` the same
string. -/
theorem C11_changeTime_sets_clock_iff_pattern (env : Env) (path : List Char) :
    (∀ rest, path = '/' :: rest → TrimPrefix path ['/'] = rest) ∧
    (isTimestampForm (TrimPrefix path ['/']) = true → (TrimPrefix path ['/']).length = 19) ∧
    ((changeTime env path).commands
        = [["timedatectl", "set-time", String.mk (TrimPrefix path ['/'])]] ↔
      isTimestampForm (TrimPrefix path ['/']) = true) ∧
    ((changeTime env path).commands = [] ↔ isTimestampForm (TrimPrefix path ['/']) = false) ∧
    ((changeTime env path).reply.changed = "true" →
      isTimestampForm (TrimPrefix path ['/']) = true ∧
      env.Run ["set-time", String.mk (TrimPrefix path ['/'])] = none) ∧
    (isTimestampForm (TrimPrefix path ['/']) = false ∨
        env.Run ["set-time", String.mk (TrimPrefix path ['/'])] ≠ none →
      (changeTime env path).reply.changed = "false" ∧
      (changeTime env path).reply.oldTime = (changeTime env path).reply.newTime) := by
  refine ⟨fun rest h => by rw [h]; exact TrimPrefix_slash rest,
    fun h => fitsTemplate_length _ _ h, ?_⟩
  by_cases hm : isTimestampForm (TrimPrefix path ['/']) = true
  · cases hr : env.Run ["set-time", String.mk (TrimPrefix path ['/'])] with
    | none => simp [changeTime, MatchString_timePattern, hm, hr]
    | some err => simp [changeTime, MatchString_timePattern, hm, hr]
  · have hm' : isTimestampForm (TrimPrefix path ['/']) = false := by simpa using hm
    simp [changeTime, MatchString_timePattern, hm']

/-- Witness for C11: a well-formed path with a command that succeeds, the same
path with a command that fails, and a path with a trailing newline. -/
theorem C11_changeTime_sets_clock_iff_pattern_witness :
    TrimPrefix "/2021-03-30 05:25:55".toList ['/'] = "2021-03-30 05:25:55".toList ∧
    (TrimPrefix "/2021-03-30 05:25:55".toList ['/']).length = 19 ∧
    (isTimestampForm (TrimPrefix "/2021-03-30 05:25:55".toList ['/']) = true ∧
      okEnv.Run ["set-time", String.mk (TrimPrefix "/2021-03-30 05:25:55".toList ['/'])]
        = none) ∧
    ((changeTime failEnv "/2021-03-30 05:25:55".toList).reply.changed = "false" ∧
      (changeTime failEnv "/2021-03-30 05:25:55".toList).reply.oldTime
        = (changeTime failEnv "/2021-03-30 05:25:55".toList).reply.newTime) ∧
    ((changeTime okEnv "/2021-03-30 05:25:55\n".toList).reply.changed = "false" ∧
      (changeTime okEnv "/2021-03-30 05:25:55\n".toList).reply.oldTime
        = (changeTime okEnv "/2021-03-30 05:25:55\n".toList).reply.newTime) :=
  ⟨(C11_changeTime_sets_clock_iff_pattern okEnv "/2021-03-30 05:25:55".toList).1
      "2021-03-30 05:25:55".toList (by decide),
    (C11_changeTime_sets_clock_iff_pattern okEnv "/2021-03-30 05:25:55".toList).2.1 (by decide),
    (C11_changeTime_sets_clock_iff_pattern okEnv "/2021-03-30 05:25:55".toList).2.2.2.2.1
      (by decide),
    (C11_changeTime_sets_clock_iff_pattern failEnv "/2021-03-30 05:25:55".toList).2.2.2.2.2
      (Or.inr (by decide)),
    (C11_changeTime_sets_clock_iff_pattern okEnv "/2021-03-30 05:25:55\n".toList).2.2.2.2.2
      (Or.inl (by decide))⟩

end TimeServer
